import Mathlib

/-! A shallow embedding of `http_server_go/server.go`.

The server reads one buffer from a connection, parses it with `NewRequest`,
picks a handler by looking at the path, and serialises the answer with
`NewResponseString`.

Conventions of the embedding:

* a Go `string` / `[]byte` is a list of bytes (`GoString`); `len` is `List.length`;
* a Go `map[string]string` is a list of entries with pairwise different keys
  (`GoMap`); the order in which `range` visits a map is not fixed by the
  language, so every function that ranges over a map takes the order as an
  argument (`RangeOrder`);
* a run-time panic (index out of range) is the value `none`;
* `os.Args` and the file system are explicit arguments.
-/

set_option maxRecDepth 100000

namespace HttpServer

/-! ## Strings -/

/-- A Go string: an immutable sequence of bytes. -/
abbrev GoString := List UInt8

/-- The bytes of a string literal of the source (its UTF-8 encoding). -/
def lit (s : String) : GoString := s.data.flatMap String.utf8EncodeChar

/-- Go `strings.HasPrefix`. -/
def HasPrefix : GoString → GoString → Bool
  | _, [] => true
  | [], _ :: _ => false
  | c :: s, d :: p => c == d && HasPrefix s p

/-- Go `strings.Index`: the position of the first occurrence of `sep` in `s`. -/
def Index (s sep : GoString) : Option Nat :=
  if HasPrefix s sep then some 0
  else match s with
    | [] => none
    | _ :: t => (Index t sep).map (· + 1)

/-- Go `strings.Contains`. -/
def Contains (s substr : GoString) : Bool := (Index s substr).isSome

/-- The loop of Go `strings.Split` (`genSplit` with `n < 0`) for a non-empty
separator: cut at the first occurrence of `sep`, go on after it.  Every turn
of the loop consumes at least one byte, so `fuel = len(s) + 1` turns are
enough. -/
def genSplit (sep : GoString) : Nat → GoString → List GoString
  | 0, s => [s]
  | fuel + 1, s =>
    match Index s sep with
    | none => [s]
    | some m => s.take m :: genSplit sep fuel (s.drop (m + sep.length))

/-- Go `strings.Split(s, sep)` for the non-empty separators the source uses
(`"\r\n"`, `": "` and `"/"`). -/
def Split (s sep : GoString) : List GoString := genSplit sep (s.length + 1) s

/-- The width in bytes of the white-space rune (Go `unicode.IsSpace`) encoded
at the head of the string, `0` when the string does not start with one.
White space is U+0009..U+000D, U+0020, U+0085, U+00A0, U+1680,
U+2000..U+200A, U+2028, U+2029, U+202F, U+205F and U+3000. -/
def spaceWidth : GoString → Nat
  | 0xC2 :: 0x85 :: _ => 2
  | 0xC2 :: 0xA0 :: _ => 2
  | 0xE1 :: 0x9A :: 0x80 :: _ => 3
  | 0xE2 :: 0x80 :: c :: _ =>
    if (0x80 ≤ c ∧ c ≤ 0x8A) ∨ c = 0xA8 ∨ c = 0xA9 ∨ c = 0xAF then 3 else 0
  | 0xE2 :: 0x81 :: 0x9F :: _ => 3
  | 0xE3 :: 0x80 :: 0x80 :: _ => 3
  | c :: _ => if (0x09 ≤ c ∧ c ≤ 0x0D) ∨ c = 0x20 then 1 else 0
  | [] => 0

/-- The scan of Go `strings.Fields`: `skip` counts the bytes still to pass of a
multi-byte white-space rune, `cur` holds the bytes of the field being read (in
reverse). -/
def fieldsAux : GoString → Nat → GoString → List GoString
  | [], _, cur => if cur = [] then [] else [cur.reverse]
  | _ :: s, skip + 1, cur => fieldsAux s skip cur
  | c :: s, 0, cur =>
    if spaceWidth (c :: s) = 0 then fieldsAux s 0 (c :: cur)
    else if cur = [] then fieldsAux s (spaceWidth (c :: s) - 1) []
    else cur.reverse :: fieldsAux s (spaceWidth (c :: s) - 1) []

/-- Go `strings.Fields`: the maximal runs of bytes between white space. -/
def Fields (s : GoString) : List GoString := fieldsAux s 0 []

/-- Go `fmt.Sprintf("%d", n)` for a length `n`. -/
def itoa (n : Nat) : GoString := (Nat.toDigits 10 n).flatMap String.utf8EncodeChar

/-- The line terminator `"\r\n"`. -/
def CRLF : GoString := lit "\r\n"

/-- The header separator `": "`. -/
def colonSpace : GoString := lit ": "

/-- The path separator `"/"`. -/
def slash : GoString := lit "/"


/-! ## Maps -/

/-- A Go `map[string]string`: entries with pairwise different keys. -/
structure GoMap where
  /-- The entries, in no meaningful order. -/
  entries : List (GoString × GoString)
  /-- A key occurs once. -/
  nodup : (entries.map Prod.fst).Nodup

/-- Go `make(map[string]string)`. -/
def GoMap.empty : GoMap := ⟨[], List.nodup_nil⟩

/-- Go `len(m)`. -/
def GoMap.len (m : GoMap) : Nat := m.entries.length

/-- Go `v, ok := m[k]`: `none` when the key is absent. -/
def GoMap.get (m : GoMap) (k : GoString) : Option GoString :=
  (m.entries.find? (fun e => e.1 = k)).map Prod.snd

/-- Go `m[k] = v`: an entry with the key `k` is replaced, otherwise one is added. -/
def GoMap.set (m : GoMap) (k v : GoString) : GoMap where
  entries := m.entries.filter (fun e => e.1 ≠ k) ++ [(k, v)]
  nodup := by
    rw [List.map_append, List.nodup_append]
    refine ⟨(m.nodup.sublist ((List.filter_sublist _).map _)), List.nodup_singleton _, ?_⟩
    intro a ha hk
    simp only [List.map_cons, List.map_nil, List.mem_singleton] at hk
    subst hk
    simp only [List.mem_map, List.mem_filter] at ha
    obtain ⟨e, ⟨_, he⟩, rfl⟩ := ha
    simp at he

/-- The order in which a `for k, v := range m` loop visits the entries of a
map: some rearrangement of the entries, which Go leaves unspecified and may
change from one loop to the next. -/
structure RangeOrder where
  /-- The entries in the order of the visit. -/
  visit : List (GoString × GoString) → List (GoString × GoString)
  /-- Every entry is visited once. -/
  perm : ∀ l, (visit l).Perm l

/-- The loop visits the entries as they are stored. -/
def RangeOrder.stored : RangeOrder := ⟨id, fun l => List.Perm.refl l⟩

/-- The loop visits the entries in the opposite order. -/
def RangeOrder.reversed : RangeOrder := ⟨List.reverse, fun l => List.reverse_perm l⟩

/-! ## Requests -/

/-- The struct `Request`. -/
structure Request where
  method : GoString
  scheme : GoString
  server : GoString
  path : GoString
  queryString : GoString
  headers : GoMap
  body : GoString

/-- The body of the loop over `headerStrings` in `NewRequest`: the state is the
header map and `r.body`. -/
def scanLine (st : GoMap × GoString) (line : GoString) : GoMap × GoString :=
  match Split line colonSpace with
  | [name, value] => (st.1.set name value, st.2)
  | _ => if line.length > 0 then (st.1, line) else st

/-- `NewRequest`; `none` is the index-out-of-range panic of `lines[0]`,
`fields[0]` or `fields[1]`. -/
def NewRequest (rawRequest : GoString) : Option Request := do
  let lines := Split rawRequest CRLF
  let line0 ← lines[0]?
  let fields := Fields line0
  let method ← fields[0]?
  let path ← fields[1]?
  let headerStrings := lines.drop 1
  let st := headerStrings.foldl scanLine (GoMap.empty, [])
  pure { method := method, scheme := [], server := [], path := path, queryString := [],
         headers := st.1, body := st.2 }

/-- `(*Request).GetHeader`: the value (empty when absent) and whether the
header is present. -/
def Request.GetHeader (r : Request) (header : GoString) : GoString × Bool :=
  match r.headers.get header with
  | some val => (val, true)
  | none => ([], false)

/-- `(*Request).GetLastPartOfPath`. -/
def Request.GetLastPartOfPath (r : Request) : GoString :=
  let result := Split r.path slash
  if h : 0 < result.length then result.get ⟨result.length - 1, by omega⟩ else []

/-! ## Responses -/

/-- The `switch statusCode` of `NewResponseString`. -/
def statusLine (statusCode : Int) : GoString :=
  if statusCode = 200 then lit "200 OK"
  else if statusCode = 404 then lit "404 Not Found"
  else if statusCode = 405 then lit "405 Method Not Allowed"
  else if statusCode = 201 then lit "201 Created"
  else lit "500 Internal Server Error"

/-- One turn of the header loop: `fmt.Sprintf("%s: %s\r\n", k, v)`. -/
def headerLine (e : GoString × GoString) : GoString :=
  e.1 ++ lit ": " ++ e.2 ++ lit "\r\n"

/-- `NewResponseString`.  The first loop of the source fills `headerString`,
which is never read.  The map the caller passes is updated in place by the
source; no caller reads it afterwards. -/
def NewResponseString (ord : RangeOrder) (statusCode : Int) (headers : Option GoMap)
    (body : GoString) : GoString :=
  let headers := match headers with
    | none => GoMap.empty
    | some h => h
  let protocol := lit "HTTP/1.1"
  let protocolLine := protocol ++ lit " " ++ statusLine statusCode ++ lit "\r\n"
  let _headerString := if headers.len > 0 then
      (ord.visit headers.entries).foldl (fun acc e => acc ++ headerLine e) []
    else []
  let headers := if body.length > 0 then headers.set (lit "Content-Length") (itoa body.length)
    else headers
  let headersLine := if headers.len > 0 then
      (ord.visit headers.entries).foldl (fun acc e => acc ++ headerLine e) [] ++ lit "\r\n"
    else []
  protocolLine ++ headersLine ++ body ++ lit "\r\n\r\n"

/-! ## The file system and the handlers -/

/-- The part of the file system the handlers touch. -/
structure FileStore where
  /-- The contents of the file at a path; `none` when `os.Stat` fails. -/
  file : GoString → Option GoString
  /-- Whether opening the path for reading fails. -/
  openFails : GoString → Bool
  /-- Whether `os.WriteFile` to the path fails. -/
  writeFails : GoString → Bool

/-- `os.Stat(path)` returns no error. -/
def FileStore.Stat (fs : FileStore) (path : GoString) : Bool := (fs.file path).isSome

/-- `os.Open` followed by `io.ReadAll`, both errors dropped as in the source: a
failed open leaves a nil file, from which nothing is read. -/
def FileStore.ReadAll (fs : FileStore) (path : GoString) : GoString :=
  if fs.openFails path then [] else (fs.file path).getD []

/-- `os.WriteFile(path, data, 0644)`: the store afterwards and whether the
error is nil.  A failed write leaves the store as it was. -/
def FileStore.WriteFile (fs : FileStore) (path data : GoString) : FileStore × Bool :=
  if fs.writeFails path then (fs, false)
  else ({ fs with file := fun q => if q = path then some data else fs.file q }, true)

/-- `extractFileDirInfo`; `args` is `os.Args`, `none` is the error result. -/
def extractFileDirInfo (args : List GoString) (req : Request) : Option GoString :=
  let filename := req.GetLastPartOfPath
  if h : args.length = 3 then some (args.get ⟨2, by omega⟩ ++ filename) else none

/-- `handleRoot`. -/
def handleRoot (ord : RangeOrder) : GoString := NewResponseString ord 200 none []

/-- `handleFiles`: the response and the file system afterwards. -/
def handleFiles (ord : RangeOrder) (args : List GoString) (fs : FileStore) (req : Request) :
    GoString × FileStore :=
  if req.method = lit "GET" then
    match extractFileDirInfo args req with
    | none => (NewResponseString ord 404 none [], fs)
    | some fullPath =>
      if fs.Stat fullPath then
        let contents := fs.ReadAll fullPath
        let responseHeaders := GoMap.empty.set (lit "Content-Type") (lit "application/octet-stream")
        (NewResponseString ord 200 (some responseHeaders) contents, fs)
      else (NewResponseString ord 404 none [], fs)
  else if req.method = lit "POST" then
    let filename := req.GetLastPartOfPath
    if h : args.length = 3 then
      let dir := args.get ⟨2, by omega⟩
      let fullPath := dir ++ filename
      match fs.WriteFile fullPath req.body with
      | (fs', false) => (NewResponseString ord 500 none [], fs')
      | (fs', true) => (NewResponseString ord 201 none [], fs')
    else (NewResponseString ord 404 none [], fs)
  else (NewResponseString ord 405 none [], fs)

/-- The dispatch of `processConnection` on a parsed request (the chain of
`if`s on `req.path`). -/
def dispatch (ord : RangeOrder) (args : List GoString) (fs : FileStore) (req : Request) :
    GoString × FileStore :=
  if req.path = lit "/" then (handleRoot ord, fs)
  else if Contains req.path (lit "/files/") then handleFiles ord args fs req
  else if Contains req.path (lit "/user-agent") then
    let val := (req.GetHeader (lit "User-Agent")).1
    let responseHeaders := GoMap.empty.set (lit "Content-Type") (lit "text/plain")
    (NewResponseString ord 200 (some responseHeaders) val, fs)
  else if ¬ Contains req.path (lit "/echo/") then (NewResponseString ord 404 none [], fs)
  else
    let randomString := req.GetLastPartOfPath
    let responseHeaders := GoMap.empty.set (lit "Content-Type") (lit "text/plain")
    (NewResponseString ord 200 (some responseHeaders) randomString, fs)

/-- `processConnection` from the moment `conn.Read` has filled `buf[:n]`
(`buf` below, at most 1024 bytes in the source): the bytes written to the
connection and the file system afterwards, or `none` when `NewRequest` panics. -/
def processConnection (ord : RangeOrder) (args : List GoString) (fs : FileStore)
    (buf : GoString) : Option (GoString × FileStore) :=
  (NewRequest buf).map (dispatch ord args fs)


/-! ## Notions used in the statements -/

/-- Occurrences of a byte sequence: the number of positions of `s` at which
`sub` starts. -/
def occurrences (sub : GoString) : GoString → Nat
  | [] => if HasPrefix [] sub then 1 else 0
  | c :: s => (if HasPrefix (c :: s) sub then 1 else 0) + occurrences sub s

/-- The ASCII white space: tab, line feed, vertical tab, form feed, carriage
return and space. -/
def isAsciiSpace (c : UInt8) : Bool := (0x09 ≤ c && c ≤ 0x0D) || c == 0x20

/-- The bytes with which the encoding of a white-space rune can start. -/
def startsSpace (c : UInt8) : Bool :=
  isAsciiSpace c || c == 0xC2 || c == 0xE1 || c == 0xE2 || c == 0xE3

/-- The lines joined by `\r\n`, without a terminator after the last one. -/
def joinLines : List GoString → GoString
  | [] => []
  | [l] => l
  | l :: l' :: ls => l ++ CRLF ++ joinLines (l' :: ls)

/-- The number a string of decimal digits denotes, as a client reads the
value of `Content-Length`. -/
def atoi (s : GoString) : Nat := s.foldl (fun acc c => 10 * acc + (c.toNat - 48)) 0

/-- A file system with one readable file. -/
def FileStore.single (path contents : GoString) : FileStore :=
  ⟨fun q => if q = path then some contents else none, fun _ => false, fun _ => false⟩

/-- A file system without files, on which every operation succeeds. -/
def FileStore.blank : FileStore := ⟨fun _ => none, fun _ => false, fun _ => false⟩

/-! ## Lemmas on maps and on the header loop -/

theorem find_set_entries (l : List (GoString × GoString)) (k v k' : GoString) :
    (l.filter (fun e => e.1 ≠ k) ++ [(k, v)]).find? (fun e => e.1 = k') =
      if k' = k then some (k, v) else l.find? (fun e => e.1 = k') := by
  induction l with
  | nil =>
    by_cases h : k' = k
    · simp [h]
    · have h2 : ¬ k = k' := fun e => h e.symm
      simp [h, h2]
  | cons e l ih =>
    by_cases he : e.1 = k
    · have : List.filter (fun e => decide (e.1 ≠ k)) (e :: l)
          = List.filter (fun e => decide (e.1 ≠ k)) l := by simp [List.filter_cons, he]
      rw [this, ih]
      by_cases h : k' = k
      · simp [h]
      · have h2 : ¬ e.1 = k' := fun x => h (x.symm.trans he)
        simp [h, List.find?_cons, h2]
    · have : List.filter (fun e => decide (e.1 ≠ k)) (e :: l)
          = e :: List.filter (fun e => decide (e.1 ≠ k)) l := by simp [List.filter_cons, he]
      rw [this, List.cons_append, List.find?_cons, List.find?_cons, ih]
      by_cases h2 : e.1 = k'
      · have h : ¬ k' = k := fun x => he (h2.trans x)
        simp [h2, h]
      · simp [h2]

theorem GoMap.get_set (m : GoMap) (k v k' : GoString) :
    (m.set k v).get k' = if k' = k then some v else m.get k' := by
  unfold GoMap.get GoMap.set
  simp only [find_set_entries]
  by_cases h : k' = k <;> simp [h]

theorem foldl_headerLine (l : List (GoString × GoString)) (init : GoString) :
    l.foldl (fun acc e => acc ++ headerLine e) init = init ++ l.flatMap headerLine := by
  induction l generalizing init with
  | nil => simp
  | cons e l ih => simp [List.foldl_cons, ih, List.flatMap_cons, List.append_assoc]

/-- The shape of the output of `NewResponseString`, with the header map
after the update of `Content-Length` named `H'`. -/
theorem NewResponseString_eq (ord : RangeOrder) (statusCode : Int) (H : Option GoMap)
    (b : GoString) :
    NewResponseString ord statusCode H b =
      lit "HTTP/1.1 " ++ statusLine statusCode ++ lit "\r\n" ++
        (if (ord.visit (if b = [] then H.getD GoMap.empty
              else (H.getD GoMap.empty).set (lit "Content-Length") (itoa b.length)).entries) = []
          then []
          else (ord.visit (if b = [] then H.getD GoMap.empty
              else (H.getD GoMap.empty).set (lit "Content-Length") (itoa b.length)).entries).flatMap
                headerLine ++ lit "\r\n") ++
        b ++ lit "\r\n\r\n" := by
  have hH : (match H with | none => GoMap.empty | some h => h) = H.getD GoMap.empty := by
    cases H <;> rfl
  have hb : (if b.length > 0 then (H.getD GoMap.empty).set (lit "Content-Length") (itoa b.length)
      else H.getD GoMap.empty) = (if b = [] then H.getD GoMap.empty
        else (H.getD GoMap.empty).set (lit "Content-Length") (itoa b.length)) := by
    cases b <;> simp
  unfold NewResponseString
  simp only [hH, hb, foldl_headerLine, List.nil_append]
  generalize (if b = [] then H.getD GoMap.empty
        else (H.getD GoMap.empty).set (lit "Content-Length") (itoa b.length)) = H'
  have hlen : (H'.len > 0) ↔ ¬ ord.visit H'.entries = [] := by
    have := (ord.perm H'.entries).length_eq
    unfold GoMap.len
    rw [← this]
    cases ord.visit H'.entries <;> simp
  by_cases h : ord.visit H'.entries = []
  · have h' : ¬ H'.len > 0 := fun x => (hlen.1 x) h
    simp only [h, h', if_true, if_false]
    rfl
  · have h' : H'.len > 0 := hlen.2 h
    simp only [h, h', if_true, if_false]
    rfl

/-! ## Lemmas on the string functions -/

theorem index_nil (sep : GoString) : Index [] sep = if HasPrefix [] sep then some 0 else none := by
  unfold Index; rfl

theorem index_cons (c : UInt8) (s sep : GoString) :
    Index (c :: s) sep = if HasPrefix (c :: s) sep then some 0 else (Index s sep).map (· + 1) := by
  rw [Index]

theorem index_cons_none_iff (c : UInt8) (s sep : GoString) :
    Index (c :: s) sep = none ↔ HasPrefix (c :: s) sep = false ∧ Index s sep = none := by
  rw [index_cons]
  by_cases h : HasPrefix (c :: s) sep = true
  · simp [h]
  · simp [h]

theorem index_le_length (s sep : GoString) (m : Nat) (h : Index s sep = some m) :
    m + sep.length ≤ s.length ∧ HasPrefix (s.drop m) sep = true := by
  induction s generalizing m with
  | nil =>
    rw [index_nil] at h
    cases sep with
    | nil => simp at h; obtain ⟨_, rfl⟩ := h; simp [HasPrefix]
    | cons d p => simp [HasPrefix] at h
  | cons c s ih =>
    rw [index_cons] at h
    by_cases hp : HasPrefix (c :: s) sep = true
    · simp only [hp, if_true, Option.some.injEq] at h
      subst h
      refine ⟨?_, by simpa using hp⟩
      clear ih
      have : ∀ (s p : GoString), HasPrefix s p = true → p.length ≤ s.length := by
        intro s
        induction s with
        | nil => intro p hp; cases p with
          | nil => simp
          | cons d p => simp [HasPrefix] at hp
        | cons c s ih => intro p hp; cases p with
          | nil => simp
          | cons d p =>
            simp only [HasPrefix, Bool.and_eq_true] at hp
            have := ih p hp.2
            simp only [List.length_cons]; omega
      simpa using this _ _ hp
    · simp only [hp, Bool.false_eq_true, if_false, Option.map_eq_some'] at h
      obtain ⟨m', hm', rfl⟩ := h
      have := ih m' hm'
      refine ⟨by simp only [List.length_cons]; omega, by simpa using this.2⟩

theorem genSplit_fuel (sep : GoString) (hsep : sep ≠ []) (n : Nat) :
    ∀ (s : GoString), s.length < n → genSplit sep n s = genSplit sep (s.length + 1) s := by
  induction n using Nat.strong_induction_on with
  | _ n ih =>
    intro s hs
    cases n with
    | zero => omega
    | succ n =>
      rw [genSplit, genSplit]
      cases hi : Index s sep with
      | none => rfl
      | some m =>
        simp only
        have hle := (index_le_length s sep m hi).1
        have hpos : 0 < sep.length := List.length_pos.2 hsep
        have hd : (s.drop (m + sep.length)).length < s.length := by
          rw [List.length_drop]; omega
        rw [ih n (Nat.lt_succ_self n) _ (by omega), ih s.length (by omega) _ hd]

/-- One turn of the loop of `Split`. -/
theorem split_eq (s sep : GoString) (hsep : sep ≠ []) :
    Split s sep = match Index s sep with
      | none => [s]
      | some m => s.take m :: Split (s.drop (m + sep.length)) sep := by
  unfold Split
  rw [genSplit]
  cases hi : Index s sep with
  | none => rfl
  | some m =>
    simp only
    have hle := (index_le_length s sep m hi).1
    have hpos : 0 < sep.length := List.length_pos.2 hsep
    rw [genSplit_fuel sep hsep s.length _ (by rw [List.length_drop]; omega)]

theorem split_of_index_none (s sep : GoString) (h : Index s sep = none) : Split s sep = [s] := by
  unfold Split
  rw [genSplit, h]

theorem split_ne_nil (s sep : GoString) : Split s sep ≠ [] := by
  unfold Split
  rw [genSplit]
  cases Index s sep <;> simp


theorem hasPrefix_two (x y : UInt8) (s : GoString) :
    HasPrefix s [x, y] = true ↔ ∃ t, s = x :: y :: t := by
  match s with
  | [] => simp [HasPrefix]
  | [c] => simp [HasPrefix]
  | c :: d :: t =>
    simp only [HasPrefix, Bool.and_true, Bool.and_eq_true, beq_iff_eq, List.cons.injEq,
      exists_eq_right', exists_and_left]

theorem hasPrefix_one (x : UInt8) (s : GoString) :
    HasPrefix s [x] = true ↔ ∃ t, s = x :: t := by
  match s with
  | [] => simp [HasPrefix]
  | c :: t =>
    simp only [HasPrefix, Bool.and_true, beq_iff_eq, List.cons.injEq, exists_eq_right']

/-- The first occurrence of a two-byte separator `[x, y]`, `x ≠ y`, in
`a ++ [x, y] ++ b` is right after `a` when `a` holds no occurrence. -/
theorem index_append_two (x y : UInt8) (hxy : x ≠ y) (a b : GoString)
    (ha : Index a [x, y] = none) : Index (a ++ x :: y :: b) [x, y] = some a.length := by
  induction a with
  | nil =>
    rw [List.nil_append, index_cons]
    simp [HasPrefix]
  | cons c a ih =>
    rw [index_cons_none_iff] at ha
    rw [List.cons_append, index_cons, ih ha.2]
    have : HasPrefix (c :: (a ++ x :: y :: b)) [x, y] = false := by
      cases a with
      | nil =>
        simp only [List.nil_append, HasPrefix, Bool.and_true]
        by_cases hc : c = x
        · simp [hc, hxy]
        · simp [hc]
      | cons d a =>
        have := ha.1
        simpa [HasPrefix] using this
    simp [this]

theorem index_two_inv (x y : UInt8) (s : GoString) (m : Nat)
    (h : Index s [x, y] = some m) :
    ∃ a b, s = a ++ x :: y :: b ∧ a.length = m ∧ Index a [x, y] = none := by
  induction s generalizing m with
  | nil => rw [index_nil] at h; simp [HasPrefix] at h
  | cons c s ih =>
    rw [index_cons] at h
    by_cases hp : HasPrefix (c :: s) [x, y] = true
    · simp only [hp, if_true, Option.some.injEq] at h
      obtain ⟨t, ht⟩ := (hasPrefix_two x y _).1 hp
      refine ⟨[], t, by simpa using ht, by simpa using h, ?_⟩
      rw [index_nil]; simp [HasPrefix]
    · simp only [hp, Bool.false_eq_true, if_false, Option.map_eq_some'] at h
      obtain ⟨m', hm', rfl⟩ := h
      obtain ⟨a, b, rfl, rfl, ha⟩ := ih m' hm'
      refine ⟨c :: a, b, rfl, rfl, ?_⟩
      rw [index_cons_none_iff]
      refine ⟨?_, ha⟩
      cases a with
      | nil => simp [HasPrefix]
      | cons d a => simpa [HasPrefix] using hp

/-- `Split` cuts `a ++ [x, y] ++ b` after `a` when `a` holds no separator. -/
theorem split_append_two (x y : UInt8) (hxy : x ≠ y) (a b : GoString)
    (ha : Index a [x, y] = none) :
    Split (a ++ x :: y :: b) [x, y] = a :: Split b [x, y] := by
  rw [split_eq _ _ (by simp), index_append_two x y hxy a b ha]
  simp

/-- Every result of `Split` on a two-byte separator `[x, y]`, `x ≠ y`: either
the string holds no separator, or it is cut at the first one. -/
theorem split_two_cases (x y : UInt8) (s : GoString) :
    (Index s [x, y] = none ∧ Split s [x, y] = [s]) ∨
    (∃ a b, s = a ++ x :: y :: b ∧ Index a [x, y] = none ∧
      Split s [x, y] = a :: Split b [x, y]) := by
  cases hi : Index s [x, y] with
  | none => exact Or.inl ⟨rfl, split_of_index_none s _ hi⟩
  | some m =>
    right
    obtain ⟨a, b, rfl, rfl, ha⟩ := index_two_inv x y s m hi
    refine ⟨a, b, rfl, ha, ?_⟩
    rw [split_eq _ _ (by simp), hi]
    simp

theorem index_one_none_iff (x : UInt8) (s : GoString) : Index s [x] = none ↔ x ∉ s := by
  induction s with
  | nil => rw [index_nil]; simp [HasPrefix]
  | cons c s ih =>
    rw [index_cons_none_iff, ih]
    simp only [HasPrefix, Bool.and_true, beq_eq_false_iff_ne, ne_eq, List.mem_cons, not_or]
    constructor
    · rintro ⟨h1, h2⟩; exact ⟨fun e => h1 e.symm, h2⟩
    · rintro ⟨h1, h2⟩; exact ⟨fun e => h1 e.symm, h2⟩

theorem index_append_one (x : UInt8) (a b : GoString) (ha : x ∉ a) :
    Index (a ++ x :: b) [x] = some a.length := by
  induction a with
  | nil => rw [List.nil_append, index_cons]; simp [HasPrefix]
  | cons c a ih =>
    simp only [List.mem_cons, not_or] at ha
    rw [List.cons_append, index_cons, ih ha.2]
    have : HasPrefix (c :: (a ++ x :: b)) [x] = false := by
      simp only [HasPrefix, Bool.and_true, beq_eq_false_iff_ne, ne_eq]
      exact fun e => ha.1 e.symm
    simp [this]

/-- `Split` cuts `a ++ [x] ++ b` after `a` when the byte `x` is not in `a`. -/
theorem split_append_one (x : UInt8) (a b : GoString) (ha : x ∉ a) :
    Split (a ++ x :: b) [x] = a :: Split b [x] := by
  rw [split_eq _ _ (by simp), index_append_one x a b ha]
  simp

theorem spaceWidth_ascii (c : UInt8) (s : GoString) (h : isAsciiSpace c = true) :
    spaceWidth (c :: s) = 1 := by
  have h' : (0x09 ≤ c ∧ c ≤ 0x0D) ∨ c = 0x20 := by
    simpa [isAsciiSpace] using h
  unfold spaceWidth
  split
  case h_7 => rename_i heq; cases heq; simp [h']
  case h_8 => rename_i heq; cases heq
  all_goals (rename_i heq; cases heq; exact absurd h' (by decide))

theorem spaceWidth_plain (c : UInt8) (s : GoString) (h : startsSpace c = false) :
    spaceWidth (c :: s) = 0 := by
  simp only [startsSpace, isAsciiSpace, Bool.or_eq_false_iff, Bool.and_eq_false_iff,
    decide_eq_false_iff_not, beq_eq_false_iff_ne, ne_eq] at h
  obtain ⟨⟨⟨⟨⟨h1, h2⟩, h3⟩, h4⟩, h5⟩, h6⟩ := h
  unfold spaceWidth
  split
  case h_7 =>
    rename_i heq; cases heq
    have : ¬ ((9 ≤ c ∧ c ≤ 13) ∨ c = 32) := by
      rintro (⟨a, b⟩ | a)
      · rcases h1 with h1 | h1
        · exact h1 a
        · exact h1 b
      · exact h2 a
    simp [this]
  case h_8 => rfl
  all_goals (rename_i heq; cases heq; simp at h3 h4 h5 h6)

theorem fieldsAux_nil (cur : GoString) (h : cur ≠ []) : fieldsAux [] 0 cur = [cur.reverse] := by
  simp [fieldsAux, h]

theorem fieldsAux_space_nil (c : UInt8) (s : GoString) (h : isAsciiSpace c = true) :
    fieldsAux (c :: s) 0 [] = fieldsAux s 0 [] := by
  rw [fieldsAux, spaceWidth_ascii c s h]
  simp

theorem fieldsAux_space_cons (c : UInt8) (s cur : GoString) (h : isAsciiSpace c = true)
    (hc : cur ≠ []) : fieldsAux (c :: s) 0 cur = cur.reverse :: fieldsAux s 0 [] := by
  rw [fieldsAux, spaceWidth_ascii c s h]
  simp [hc]

theorem fieldsAux_plain (c : UInt8) (s cur : GoString) (h : startsSpace c = false) :
    fieldsAux (c :: s) 0 cur = fieldsAux s 0 (c :: cur) := by
  rw [fieldsAux, spaceWidth_plain c s h]
  simp

theorem fieldsAux_spaces (sp s : GoString) (h : ∀ c ∈ sp, isAsciiSpace c = true) :
    fieldsAux (sp ++ s) 0 [] = fieldsAux s 0 [] := by
  induction sp with
  | nil => rfl
  | cons c sp ih =>
    rw [List.cons_append, fieldsAux_space_nil c _ (h c (List.mem_cons_self _ _))]
    exact ih (fun d hd => h d (List.mem_cons_of_mem _ hd))

theorem fieldsAux_plains (f s cur : GoString) (h : ∀ c ∈ f, startsSpace c = false) :
    fieldsAux (f ++ s) 0 cur = fieldsAux s 0 (f.reverse ++ cur) := by
  induction f generalizing cur with
  | nil => rfl
  | cons c f ih =>
    rw [List.cons_append, fieldsAux_plain c _ _ (h c (List.mem_cons_self _ _)),
      ih _ (fun d hd => h d (List.mem_cons_of_mem _ hd))]
    simp

/-- A field of plain bytes in front of ASCII white space or of the end of the
string is the first result of `Fields`, whatever ASCII white space precedes
it. -/
theorem fields_field (sp f tail : GoString) (hsp : ∀ c ∈ sp, isAsciiSpace c = true)
    (hf : ∀ c ∈ f, startsSpace c = false) (hne : f ≠ [])
    (htail : tail = [] ∨ ∃ c t, tail = c :: t ∧ isAsciiSpace c = true) :
    fieldsAux (sp ++ f ++ tail) 0 [] = f :: fieldsAux tail 0 [] := by
  rw [List.append_assoc, fieldsAux_spaces sp _ hsp, fieldsAux_plains f _ _ hf]
  have hr : f.reverse ++ [] ≠ [] := by simpa using hne
  rcases htail with rfl | ⟨c, t, rfl, hc⟩
  · rw [fieldsAux_nil _ hr]
    simp [fieldsAux]
  · rw [fieldsAux_space_cons c t _ hc hr, fieldsAux_space_nil c t hc]
    simp

/-! ## The response builder -/

/-- C1 (as stated, refuted): the bytes of the header line
`Content-Length: <n>\r\n` can occur twice in the output.  With no headers and
the 20-byte body `Content-Length: 20\r\n` the line is there once as a header
and once as the body; with the header `X: a\r\nContent-Length: 5` and the body
`hello` it is there twice before the blank line. -/
theorem content_length_line_twice :
    (lit "Content-Length: 20\r\n").length = 20 ∧
    occurrences (lit "Content-Length: " ++ itoa 20 ++ lit "\r\n")
      (NewResponseString RangeOrder.stored 200 none (lit "Content-Length: 20\r\n")) = 2 ∧
    NewResponseString RangeOrder.stored 200 none (lit "Content-Length: 20\r\n") =
      lit "HTTP/1.1 200 OK\r\nContent-Length: 20\r\n\r\nContent-Length: 20\r\n\r\n\r\n" ∧
    (lit "hello").length = 5 ∧
    NewResponseString RangeOrder.stored 200
        (some (GoMap.empty.set (lit "X") (lit "a\r\nContent-Length: 5"))) (lit "hello") =
      lit "HTTP/1.1 200 OK\r\nX: a\r\nContent-Length: 5\r\nContent-Length: 5\r\n\r\nhello\r\n\r\n" ∧
    occurrences (lit "Content-Length: " ++ itoa 5 ++ lit "\r\n")
      (NewResponseString RangeOrder.stored 200
        (some (GoMap.empty.set (lit "X") (lit "a\r\nContent-Length: 5"))) (lit "hello")) = 2 := by
  decide

/-- C1 (amended): for a non-empty body the header block that
`NewResponseString` writes between the status line and the blank line is one
line `<name>: <value>\r\n` per entry of the header map, in some order; exactly
one of them is for the name `Content-Length`, it carries the decimal byte
length of the body, and the other lines are those of the caller's entries with
a different name (a `Content-Length` entry of the caller is replaced). -/
theorem NewResponseString_content_length (ord : RangeOrder) (statusCode : Int)
    (H : Option GoMap) (b : GoString) (hb : b ≠ []) :
    ∃ pre post : List (GoString × GoString),
      NewResponseString ord statusCode H b =
        lit "HTTP/1.1 " ++ statusLine statusCode ++ lit "\r\n" ++
          pre.flatMap headerLine ++
          (lit "Content-Length: " ++ itoa b.length ++ lit "\r\n") ++
          post.flatMap headerLine ++
          lit "\r\n" ++ b ++ lit "\r\n\r\n" ∧
      (∀ e ∈ pre ++ post, e.1 ≠ lit "Content-Length") ∧
      (pre ++ post).Perm
        ((H.getD GoMap.empty).entries.filter (fun e => e.1 ≠ lit "Content-Length")) := by
  have hmem : (lit "Content-Length", itoa b.length) ∈
      ord.visit ((H.getD GoMap.empty).set (lit "Content-Length") (itoa b.length)).entries := by
    rw [(ord.perm _).mem_iff]
    simp [GoMap.set]
  obtain ⟨pre, post, hsplit⟩ := List.append_of_mem hmem
  have hperm : (pre ++ post).Perm
      ((H.getD GoMap.empty).entries.filter (fun e => e.1 ≠ lit "Content-Length")) := by
    have h1 := ord.perm ((H.getD GoMap.empty).set (lit "Content-Length") (itoa b.length)).entries
    rw [hsplit] at h1
    have h2 : ((H.getD GoMap.empty).set (lit "Content-Length") (itoa b.length)).entries
        = (H.getD GoMap.empty).entries.filter (fun e => e.1 ≠ lit "Content-Length")
          ++ [(lit "Content-Length", itoa b.length)] := rfl
    rw [h2] at h1
    have h3 := (List.perm_middle.symm.trans h1).trans (List.perm_append_singleton _ _)
    exact h3.cons_inv
  refine ⟨pre, post, ?_, ?_, hperm⟩
  · rw [NewResponseString_eq]
    simp only [if_neg hb, hsplit]
    have hne : ¬ (pre ++ (lit "Content-Length", itoa b.length) :: post = []) := by simp
    have hl : headerLine (lit "Content-Length", itoa b.length)
        = lit "Content-Length: " ++ (itoa b.length ++ lit "\r\n") := by
      have h0 : lit "Content-Length" ++ lit ": " = lit "Content-Length: " := by decide
      unfold headerLine
      simp only [List.append_assoc]
      rw [← List.append_assoc, h0]
    simp only [if_neg hne, List.flatMap_append, List.flatMap_cons, List.append_assoc, hl]
  · intro e he
    have := (hperm.mem_iff).1 he
    simp only [List.mem_filter] at this
    simpa using this.2

/-- C1 (amended) at a concrete input: the caller passes `Content-Length: 99`
and `Content-Type: text/plain` with the body `hello`. -/
theorem NewResponseString_content_length_witness :
    (lit "hello" ≠ []) ∧
    ∃ pre post : List (GoString × GoString),
      NewResponseString RangeOrder.reversed 200
          (some ((GoMap.empty.set (lit "Content-Length") (lit "99")).set
            (lit "Content-Type") (lit "text/plain"))) (lit "hello") =
        lit "HTTP/1.1 " ++ statusLine 200 ++ lit "\r\n" ++
          pre.flatMap headerLine ++
          (lit "Content-Length: " ++ itoa (lit "hello").length ++ lit "\r\n") ++
          post.flatMap headerLine ++
          lit "\r\n" ++ lit "hello" ++ lit "\r\n\r\n" ∧
      (∀ e ∈ pre ++ post, e.1 ≠ lit "Content-Length") ∧
      (pre ++ post).Perm
        (((some ((GoMap.empty.set (lit "Content-Length") (lit "99")).set
            (lit "Content-Type") (lit "text/plain")) : Option GoMap).getD
              GoMap.empty).entries.filter (fun e => e.1 ≠ lit "Content-Length")) :=
  ⟨by decide, NewResponseString_content_length RangeOrder.reversed 200 _ (lit "hello") (by decide)⟩

/-- C3: the output of `NewResponseString` is the status line, then the header
block, then the body, then `\r\n\r\n`.  The header block is empty when the
header map `H'` (the caller's map, with `Content-Length` set to the length of
a non-empty body) has no entry, and otherwise is one line
`<name>: <value>\r\n` per entry of `H'`, in some order, followed by `\r\n`.
The output ends with `\r\n\r\n`, and without headers and body it is the
status line followed by `\r\n\r\n`. -/
theorem NewResponseString_layout (ord : RangeOrder) (statusCode : Int) (H : Option GoMap)
    (b : GoString) :
    (∃ es : List (GoString × GoString),
      es.Perm (if b = [] then H.getD GoMap.empty
        else (H.getD GoMap.empty).set (lit "Content-Length") (itoa b.length)).entries ∧
      NewResponseString ord statusCode H b =
        lit "HTTP/1.1 " ++ statusLine statusCode ++ lit "\r\n" ++
          (if es = [] then []
            else es.flatMap (fun e => e.1 ++ lit ": " ++ e.2 ++ lit "\r\n") ++ lit "\r\n") ++
          b ++ lit "\r\n\r\n") ∧
    lit "\r\n\r\n" <:+ NewResponseString ord statusCode H b ∧
    NewResponseString ord statusCode none [] =
      lit "HTTP/1.1 " ++ statusLine statusCode ++ lit "\r\n" ++ lit "\r\n\r\n" ∧
    NewResponseString ord statusCode (some GoMap.empty) [] =
      lit "HTTP/1.1 " ++ statusLine statusCode ++ lit "\r\n" ++ lit "\r\n\r\n" := by
  refine ⟨⟨_, ord.perm _, NewResponseString_eq ord statusCode H b⟩, ?_, ?_, ?_⟩
  · rw [NewResponseString_eq]
    exact List.suffix_append _ _
  · rw [NewResponseString_eq]
    have h : ord.visit GoMap.empty.entries = [] := by
      have := (ord.perm GoMap.empty.entries).length_eq
      exact List.length_eq_zero.1 (by simpa [GoMap.empty] using this)
    simp [h]
  · rw [NewResponseString_eq]
    have h : ord.visit GoMap.empty.entries = [] := by
      have := (ord.perm GoMap.empty.entries).length_eq
      exact List.length_eq_zero.1 (by simpa [GoMap.empty] using this)
    simp [h]

theorem statusLine_prefix (ord : RangeOrder) (statusCode : Int) (H : Option GoMap)
    (b : GoString) :
    lit "HTTP/1.1 " ++ statusLine statusCode ++ lit "\r\n" <+:
      NewResponseString ord statusCode H b := by
  rw [NewResponseString_eq]
  exact ((List.prefix_append _ _).trans (List.prefix_append _ _)).trans (List.prefix_append _ _)

theorem statusLine_other (statusCode : Int) (h200 : statusCode ≠ 200) (h201 : statusCode ≠ 201)
    (h404 : statusCode ≠ 404) (h405 : statusCode ≠ 405) :
    statusLine statusCode = lit "500 Internal Server Error" := by
  simp [statusLine, h200, h201, h404, h405]

theorem code_prefix (ord : RangeOrder) (statusCode : Int) (H : Option GoMap) (b : GoString)
    (h : statusCode = 200 ∨ statusCode = 201 ∨ statusCode = 404 ∨ statusCode = 405 ∨
      statusCode = 500) :
    ∃ code ∈ [lit "200", lit "201", lit "404", lit "405", lit "500"],
      lit "HTTP/1.1 " ++ code <+: NewResponseString ord statusCode H b := by
  have hp := statusLine_prefix ord statusCode H b
  have e200 : lit "HTTP/1.1 " ++ lit "200" ++ lit " OK\r\n"
      = lit "HTTP/1.1 " ++ statusLine 200 ++ lit "\r\n" := by decide
  have e201 : lit "HTTP/1.1 " ++ lit "201" ++ lit " Created\r\n"
      = lit "HTTP/1.1 " ++ statusLine 201 ++ lit "\r\n" := by decide
  have e404 : lit "HTTP/1.1 " ++ lit "404" ++ lit " Not Found\r\n"
      = lit "HTTP/1.1 " ++ statusLine 404 ++ lit "\r\n" := by decide
  have e405 : lit "HTTP/1.1 " ++ lit "405" ++ lit " Method Not Allowed\r\n"
      = lit "HTTP/1.1 " ++ statusLine 405 ++ lit "\r\n" := by decide
  have e500 : lit "HTTP/1.1 " ++ lit "500" ++ lit " Internal Server Error\r\n"
      = lit "HTTP/1.1 " ++ statusLine 500 ++ lit "\r\n" := by decide
  rcases h with h | h | h | h | h <;> subst h
  · exact ⟨lit "200", List.mem_cons_self _ _, List.IsPrefix.trans ⟨_, e200⟩ hp⟩
  · exact ⟨lit "201", List.mem_cons_of_mem _ (List.mem_cons_self _ _),
      List.IsPrefix.trans ⟨_, e201⟩ hp⟩
  · exact ⟨lit "404", List.mem_cons_of_mem _ (List.mem_cons_of_mem _ (List.mem_cons_self _ _)),
      List.IsPrefix.trans ⟨_, e404⟩ hp⟩
  · exact ⟨lit "405", List.mem_cons_of_mem _ (List.mem_cons_of_mem _
      (List.mem_cons_of_mem _ (List.mem_cons_self _ _))), List.IsPrefix.trans ⟨_, e405⟩ hp⟩
  · exact ⟨lit "500", List.mem_cons_of_mem _ (List.mem_cons_of_mem _
      (List.mem_cons_of_mem _ (List.mem_cons_of_mem _ (List.mem_cons_self _ _)))),
      List.IsPrefix.trans ⟨_, e500⟩ hp⟩

theorem handleFiles_code_prefix (ord : RangeOrder) (args : List GoString) (fs : FileStore)
    (req : Request) :
    ∃ code ∈ [lit "200", lit "201", lit "404", lit "405", lit "500"],
      lit "HTTP/1.1 " ++ code <+: (handleFiles ord args fs req).1 := by
  unfold handleFiles
  split_ifs
  · split
    · exact code_prefix ord 404 none [] (by simp)
    · split_ifs
      · exact code_prefix ord 200 (some _) (FileStore.ReadAll fs _) (by simp)
      · exact code_prefix ord 404 none [] (by simp)
  · dsimp only
    split
    · exact code_prefix ord 500 none [] (by simp)
    · exact code_prefix ord 201 none [] (by simp)
  · exact code_prefix ord 404 none [] (by simp)
  · exact code_prefix ord 405 none [] (by simp)

theorem dispatch_code_prefix (ord : RangeOrder) (args : List GoString) (fs : FileStore)
    (req : Request) :
    ∃ code ∈ [lit "200", lit "201", lit "404", lit "405", lit "500"],
      lit "HTTP/1.1 " ++ code <+: (dispatch ord args fs req).1 := by
  unfold dispatch
  split_ifs
  · exact code_prefix ord 200 none [] (by simp)
  · exact handleFiles_code_prefix ord args fs req
  · exact code_prefix ord 200 (some _) (req.GetHeader (lit "User-Agent")).1 (by simp)
  · exact code_prefix ord 200 (some _) req.GetLastPartOfPath (by simp)
  · exact code_prefix ord 404 none [] (by simp)

/-- C2: the output of `NewResponseString` begins with the status line
`HTTP/1.1 <code> <reason>\r\n` of the table for 200, 201, 404 and 405, and with
`HTTP/1.1 500 Internal Server Error\r\n` for every other status code; every
response `processConnection` writes begins with `HTTP/1.1 ` followed by one of
200, 201, 404, 405, 500. -/
theorem status_line_table :
    (∀ (ord : RangeOrder) (H : Option GoMap) (body : GoString),
      lit "HTTP/1.1 200 OK\r\n" <+: NewResponseString ord 200 H body ∧
      lit "HTTP/1.1 201 Created\r\n" <+: NewResponseString ord 201 H body ∧
      lit "HTTP/1.1 404 Not Found\r\n" <+: NewResponseString ord 404 H body ∧
      lit "HTTP/1.1 405 Method Not Allowed\r\n" <+: NewResponseString ord 405 H body) ∧
    (∀ (ord : RangeOrder) (statusCode : Int) (H : Option GoMap) (body : GoString),
      statusCode ≠ 200 → statusCode ≠ 201 → statusCode ≠ 404 → statusCode ≠ 405 →
      lit "HTTP/1.1 500 Internal Server Error\r\n" <+:
        NewResponseString ord statusCode H body) ∧
    (∀ (ord : RangeOrder) (args : List GoString) (fs : FileStore) (buf response : GoString),
      (processConnection ord args fs buf).map Prod.fst = some response →
      ∃ code ∈ [lit "200", lit "201", lit "404", lit "405", lit "500"],
        lit "HTTP/1.1 " ++ code <+: response) := by
  refine ⟨fun ord H body => ⟨?_, ?_, ?_, ?_⟩, ?_, ?_⟩
  · exact statusLine_prefix ord 200 H body
  · exact statusLine_prefix ord 201 H body
  · exact statusLine_prefix ord 404 H body
  · exact statusLine_prefix ord 405 H body
  · intro ord statusCode H body h200 h201 h404 h405
    have hp := statusLine_prefix ord statusCode H body
    rw [statusLine_other statusCode h200 h201 h404 h405] at hp
    exact hp
  · intro ord args fs buf response hout
    unfold processConnection at hout
    cases hreq : NewRequest buf with
    | none => simp [hreq] at hout
    | some req =>
      simp only [hreq, Option.map_some', Option.some.injEq] at hout
      subst hout
      exact dispatch_code_prefix ord args fs req

/-- C2 at concrete inputs: the status codes 500, 0 and -7, and the request
`GET /nonexistent HTTP/1.1`. -/
theorem status_line_table_witness :
    lit "HTTP/1.1 500 Internal Server Error\r\n" <+:
      NewResponseString RangeOrder.stored 500 none (lit "x") ∧
    lit "HTTP/1.1 500 Internal Server Error\r\n" <+:
      NewResponseString RangeOrder.stored 0 none [] ∧
    lit "HTTP/1.1 500 Internal Server Error\r\n" <+:
      NewResponseString RangeOrder.stored (-7) none [] ∧
    (processConnection RangeOrder.stored [] FileStore.blank
        (lit "GET /nonexistent HTTP/1.1\r\n\r\n")).map Prod.fst
      = some (lit "HTTP/1.1 404 Not Found\r\n\r\n\r\n") ∧
    ∃ code ∈ [lit "200", lit "201", lit "404", lit "405", lit "500"],
      lit "HTTP/1.1 " ++ code <+: lit "HTTP/1.1 404 Not Found\r\n\r\n\r\n" :=
  ⟨status_line_table.2.1 RangeOrder.stored 500 none (lit "x")
      (by decide) (by decide) (by decide) (by decide),
    status_line_table.2.1 RangeOrder.stored 0 none []
      (by decide) (by decide) (by decide) (by decide),
    status_line_table.2.1 RangeOrder.stored (-7) none []
      (by decide) (by decide) (by decide) (by decide),
    by decide,
    status_line_table.2.2 RangeOrder.stored [] FileStore.blank
      (lit "GET /nonexistent HTTP/1.1\r\n\r\n")
      (lit "HTTP/1.1 404 Not Found\r\n\r\n\r\n") (by decide)⟩

/-! ## The request parser -/

theorem split_crlf_cons (raw : GoString) : ∃ line0 rest, Split raw CRLF = line0 :: rest := by
  cases h : Split raw CRLF with
  | nil => exact absurd h (split_ne_nil raw CRLF)
  | cons line0 rest => exact ⟨line0, rest, rfl⟩

theorem NewRequest_of_fields (raw line0 : GoString) (rest : List GoString)
    (method path : GoString) (more : List GoString)
    (hs : Split raw CRLF = line0 :: rest) (hf : Fields line0 = method :: path :: more) :
    NewRequest raw = some (Request.mk method [] [] path []
      (rest.foldl scanLine (GoMap.empty, [])).1 (rest.foldl scanLine (GoMap.empty, [])).2) := by
  simp [NewRequest, hs, hf]

theorem fields_two (sp1 m sp2 p tail : GoString)
    (h1 : ∀ c ∈ sp1, isAsciiSpace c = true) (hm : ∀ c ∈ m, startsSpace c = false)
    (hmne : m ≠ []) (h2 : ∀ c ∈ sp2, isAsciiSpace c = true) (h2ne : sp2 ≠ [])
    (hp : ∀ c ∈ p, startsSpace c = false) (hpne : p ≠ [])
    (htail : tail = [] ∨ ∃ c t, tail = c :: t ∧ isAsciiSpace c = true) :
    Fields (sp1 ++ m ++ sp2 ++ p ++ tail) = m :: p :: Fields tail := by
  unfold Fields
  have e : sp1 ++ m ++ sp2 ++ p ++ tail = sp1 ++ m ++ (sp2 ++ p ++ tail) := by
    simp only [List.append_assoc]
  rw [e, fields_field sp1 m _ h1 hm hmne, fields_field sp2 p tail h2 hp hpne htail]
  right
  cases sp2 with
  | nil => exact absurd rfl h2ne
  | cons c t => exact ⟨c, _, rfl, h2 c (List.mem_cons_self _ _)⟩

/-- C4: when the first `\r\n`-delimited line of the buffer splits on white space
into the fields `method`, `path` and any further ones, `NewRequest` returns a
request with that method and that path.  In particular a first line made of
ASCII white space, a method, ASCII white space, a path and anything after
further white space gives that method and that path.  The buffer
`GET /echo/abc123 HTTP/1.1` gives the method `GET`, the path `/echo/abc123`
and the last path part `abc123`. -/
theorem NewRequest_request_line :
    (∀ raw : GoString, ∃ line0 rest, Split raw CRLF = line0 :: rest ∧
      ∀ method path more, Fields line0 = method :: path :: more →
        ∃ r, NewRequest raw = some r ∧ r.method = method ∧ r.path = path) ∧
    (∀ sp1 m sp2 p tail more : GoString,
      (∀ c ∈ sp1, isAsciiSpace c = true) → (∀ c ∈ m, startsSpace c = false) → m ≠ [] →
      (∀ c ∈ sp2, isAsciiSpace c = true) → sp2 ≠ [] →
      (∀ c ∈ p, startsSpace c = false) → p ≠ [] →
      (tail = [] ∨ ∃ c t, tail = c :: t ∧ isAsciiSpace c = true) →
      Contains (sp1 ++ m ++ sp2 ++ p ++ tail) CRLF = false →
      ∃ r, NewRequest (sp1 ++ m ++ sp2 ++ p ++ tail ++ CRLF ++ more) = some r ∧
        r.method = m ∧ r.path = p) ∧
    (NewRequest (lit "GET /echo/abc123 HTTP/1.1\r\n\r\n")).map
        (fun r => (r.method, r.path, r.GetLastPartOfPath))
      = some (lit "GET", lit "/echo/abc123", lit "abc123") := by
  refine ⟨?_, ?_, by decide⟩
  · intro raw
    obtain ⟨line0, rest, hs⟩ := split_crlf_cons raw
    refine ⟨line0, rest, hs, ?_⟩
    intro method path more hf
    exact ⟨_, NewRequest_of_fields raw line0 rest method path more hs hf, rfl, rfl⟩
  · intro sp1 m sp2 p tail more h1 hm hmne h2 h2ne hp hpne htail hc
    have hidx : Index (sp1 ++ m ++ sp2 ++ p ++ tail) [13, 10] = none := by
      have : Index (sp1 ++ m ++ sp2 ++ p ++ tail) CRLF = none := by
        simpa [Contains] using hc
      exact this
    have hs : Split (sp1 ++ m ++ sp2 ++ p ++ tail ++ CRLF ++ more) CRLF
        = (sp1 ++ m ++ sp2 ++ p ++ tail) :: Split more CRLF := by
      have := split_append_two 13 10 (by decide) (sp1 ++ m ++ sp2 ++ p ++ tail) more hidx
      simpa [List.append_assoc] using this
    exact ⟨_, NewRequest_of_fields _ _ _ m p _ hs
      (fields_two sp1 m sp2 p tail h1 hm hmne h2 h2ne hp hpne htail), rfl, rfl⟩

/-- C4 at concrete inputs: a request line with leading and repeated white
space and two further fields. -/
theorem NewRequest_request_line_witness :
    (∃ line0 rest, Split (lit " \tGET   /echo/abc123 HTTP/1.1 x\r\n\r\n") CRLF = line0 :: rest ∧
      ∀ method path more, Fields line0 = method :: path :: more →
        ∃ r, NewRequest (lit " \tGET   /echo/abc123 HTTP/1.1 x\r\n\r\n") = some r ∧
          r.method = method ∧ r.path = path) ∧
    (∃ r, NewRequest (lit " \t" ++ lit "GET" ++ lit "   " ++ lit "/echo/abc123" ++
        lit " HTTP/1.1 x" ++ CRLF ++ lit "\r\n") = some r ∧
      r.method = lit "GET" ∧ r.path = lit "/echo/abc123") :=
  ⟨NewRequest_request_line.1 (lit " \tGET   /echo/abc123 HTTP/1.1 x\r\n\r\n"),
    NewRequest_request_line.2.1 (lit " \t") (lit "GET") (lit "   ") (lit "/echo/abc123")
      (lit " HTTP/1.1 x") (lit "\r\n") (by decide) (by decide) (by decide) (by decide)
      (by decide) (by decide) (by decide) (Or.inr ⟨32, lit "HTTP/1.1 x", by decide, by decide⟩)
      (by decide)⟩

/-- C9: `Split` always returns a first line, so `lines[0]` never faults, and
`NewRequest` faults exactly when that line has fewer than two white-space
separated fields; it does so on the empty buffer, on `\r\n` and on `GET\r\n`,
and it returns a request on a buffer without any `\r\n`. -/
theorem NewRequest_fault_iff :
    (∀ raw : GoString, ∃ line0 rest, Split raw CRLF = line0 :: rest ∧
      (NewRequest raw = none ↔ (Fields line0).length < 2)) ∧
    (NewRequest []).isNone = true ∧
    (NewRequest (lit "\r\n")).isNone = true ∧
    (NewRequest (lit "GET\r\n")).isNone = true ∧
    (NewRequest (lit "GET /index.html")).map (fun r => (r.method, r.path))
      = some (lit "GET", lit "/index.html") := by
  refine ⟨?_, by decide, by decide, by decide, by decide⟩
  intro raw
  obtain ⟨line0, rest, hs⟩ := split_crlf_cons raw
  refine ⟨line0, rest, hs, ?_⟩
  cases hf : Fields line0 with
  | nil => simp [NewRequest, hs, hf]
  | cons a l =>
    cases l with
    | nil => simp [NewRequest, hs, hf]
    | cons b l => simp [NewRequest_of_fields raw line0 rest a b l hs hf]

/-! ## The dispatch -/

theorem perm_pair {α : Type} [DecidableEq α] (a b : α) (es : List α) (h : es.Perm [a, b]) :
    es = [a, b] ∨ es = [b, a] := by
  obtain ⟨x, y, rfl⟩ := List.length_eq_two.1 (h.length_eq)
  rw [List.cons_perm_iff_perm_erase] at h
  obtain ⟨hx, hy⟩ := h
  by_cases hxa : x = a
  · subst hxa
    simp only [List.erase_cons_head, List.singleton_perm, List.cons.injEq, and_true] at hy
    left; rw [hy]
  · have hxb : x = b := by simpa [hxa] using hx
    subst hxb
    have hne : ¬ a = x := fun e => hxa e.symm
    have : [a, x].erase x = [a] := by simp [List.erase_cons, hne]
    rw [this] at hy
    simp only [List.singleton_perm, List.cons.injEq, and_true] at hy
    right; rw [hy]

theorem visit_nil (ord : RangeOrder) : ord.visit [] = [] :=
  List.length_eq_zero.1 (by simpa using (ord.perm []).length_eq)

theorem visit_singleton (ord : RangeOrder) (e : GoString × GoString) : ord.visit [e] = [e] :=
  List.perm_singleton.1 (ord.perm [e])

/-- The response without headers and body. -/
theorem response_bare (ord : RangeOrder) (statusCode : Int) :
    NewResponseString ord statusCode none [] =
      lit "HTTP/1.1 " ++ statusLine statusCode ++ lit "\r\n\r\n\r\n" := by
  rw [NewResponseString_eq]
  have h : ord.visit GoMap.empty.entries = [] := visit_nil ord
  simp only [if_true, Option.getD_none, h, List.append_nil, List.append_assoc]
  rfl

/-- The response with the one header `k: v` and no body. -/
theorem response_one_header (ord : RangeOrder) (statusCode : Int) (k v : GoString) :
    NewResponseString ord statusCode (some (GoMap.empty.set k v)) [] =
      lit "HTTP/1.1 " ++ statusLine statusCode ++ lit "\r\n" ++ (k ++ lit ": " ++ v ++ lit "\r\n")
        ++ lit "\r\n" ++ lit "\r\n\r\n" := by
  rw [NewResponseString_eq]
  have h : ord.visit (GoMap.empty.set k v).entries = [(k, v)] := visit_singleton ord (k, v)
  simp only [if_true, Option.getD_some, h, List.append_nil, List.append_assoc]
  simp [headerLine]

/-- The response with the one header `k: v` and a body: the header line and
the `Content-Length` line come in either order. -/
theorem response_header_body (ord : RangeOrder) (statusCode : Int) (k v b : GoString)
    (hk : k ≠ lit "Content-Length") (hb : b ≠ []) :
    NewResponseString ord statusCode (some (GoMap.empty.set k v)) b =
      lit "HTTP/1.1 " ++ statusLine statusCode ++ lit "\r\n" ++
        (k ++ lit ": " ++ v ++ lit "\r\n") ++
        (lit "Content-Length: " ++ itoa b.length ++ lit "\r\n") ++
        lit "\r\n" ++ b ++ lit "\r\n\r\n" ∨
    NewResponseString ord statusCode (some (GoMap.empty.set k v)) b =
      lit "HTTP/1.1 " ++ statusLine statusCode ++ lit "\r\n" ++
        (lit "Content-Length: " ++ itoa b.length ++ lit "\r\n") ++
        (k ++ lit ": " ++ v ++ lit "\r\n") ++
        lit "\r\n" ++ b ++ lit "\r\n\r\n" := by
  rw [NewResponseString_eq]
  have he : ((GoMap.empty.set k v).set (lit "Content-Length") (itoa b.length)).entries
      = [(k, v), (lit "Content-Length", itoa b.length)] := by
    simp [GoMap.set, GoMap.empty, hk]
  have hl : ∀ x : GoString, lit "Content-Length" ++ (lit ": " ++ x) = lit "Content-Length: " ++ x :=
    fun _ => rfl
  have hp := ord.perm ((GoMap.empty.set k v).set (lit "Content-Length") (itoa b.length)).entries
  rw [he] at hp
  simp only [if_neg hb, Option.getD_some]
  rcases perm_pair _ _ _ hp with h | h
  · left
    rw [he, h]
    simp only [List.flatMap_cons, List.flatMap_nil, hl, List.append_nil, List.append_assoc,
      headerLine, reduceCtorEq, if_false]
  · right
    rw [he, h]
    simp only [List.flatMap_cons, List.flatMap_nil, hl, List.append_nil, List.append_assoc,
      headerLine, reduceCtorEq, if_false]

/-- C10 (as stated, refuted): with no serving directory (`os.Args` is the
program name alone) the request `PUT /files/x` is answered 405, not 404. -/
theorem files_without_directory_put :
    Contains (lit "/files/x") (lit "/files/") = true ∧
    (processConnection RangeOrder.stored [lit "server"] FileStore.blank
        (lit "PUT /files/x HTTP/1.1\r\n\r\n")).map Prod.fst
      = some (lit "HTTP/1.1 405 Method Not Allowed\r\n\r\n\r\n") := by
  decide

/-- C10 (amended): when no serving directory is configured (`os.Args` does not
have three elements), every `GET` and every `POST` request whose path contains
`/files/` is answered with status 404, no header and an empty body, and the
file system is left as it was; the same request with any other method is
answered 405. -/
theorem files_without_directory (ord : RangeOrder) (args : List GoString) (fs : FileStore)
    (req : Request) (hargs : args.length ≠ 3)
    (hpath : Contains req.path (lit "/files/") = true) :
    ((req.method = lit "GET" ∨ req.method = lit "POST") →
      dispatch ord args fs req = (lit "HTTP/1.1 404 Not Found\r\n\r\n\r\n", fs)) ∧
    (req.method ≠ lit "GET" → req.method ≠ lit "POST" →
      dispatch ord args fs req = (lit "HTTP/1.1 405 Method Not Allowed\r\n\r\n\r\n", fs)) := by
  have hroot : req.path ≠ lit "/" := by
    intro h
    rw [h] at hpath
    exact absurd hpath (by decide)
  have h404 : NewResponseString ord 404 none [] = lit "HTTP/1.1 404 Not Found\r\n\r\n\r\n" := by
    rw [response_bare]; decide
  have h405 : NewResponseString ord 405 none []
      = lit "HTTP/1.1 405 Method Not Allowed\r\n\r\n\r\n" := by
    rw [response_bare]; decide
  have hd : dispatch ord args fs req = handleFiles ord args fs req := by
    unfold dispatch
    rw [if_neg hroot, if_pos hpath]
  rw [hd]
  constructor
  · intro hm
    unfold handleFiles extractFileDirInfo
    rcases hm with hm | hm
    · rw [if_pos hm]
      simp only [dif_neg hargs, h404]
    · have hg : req.method ≠ lit "GET" := by rw [hm]; decide
      rw [if_neg hg, if_pos hm]
      simp only [dif_neg hargs, h404]
  · intro hg hp
    unfold handleFiles
    rw [if_neg hg, if_neg hp, h405]

/-- C10 (amended) at concrete inputs: `GET /files/x` and `POST /files/x`
without a serving directory. -/
theorem files_without_directory_witness :
    dispatch RangeOrder.stored [lit "server"] FileStore.blank
        (Request.mk (lit "GET") [] [] (lit "/files/x") [] GoMap.empty [])
      = (lit "HTTP/1.1 404 Not Found\r\n\r\n\r\n", FileStore.blank) ∧
    dispatch RangeOrder.stored [lit "server"] FileStore.blank
        (Request.mk (lit "POST") [] [] (lit "/files/x") [] GoMap.empty (lit "hello"))
      = (lit "HTTP/1.1 404 Not Found\r\n\r\n\r\n", FileStore.blank) :=
  ⟨(files_without_directory RangeOrder.stored [lit "server"] FileStore.blank
      (Request.mk (lit "GET") [] [] (lit "/files/x") [] GoMap.empty [])
      (by decide) (by decide)).1 (Or.inl rfl),
   (files_without_directory RangeOrder.stored [lit "server"] FileStore.blank
      (Request.mk (lit "POST") [] [] (lit "/files/x") [] GoMap.empty (lit "hello"))
      (by decide) (by decide)).1 (Or.inr rfl)⟩

theorem hasPrefix_mem (s p : GoString) (h : HasPrefix s p = true) : ∀ x ∈ p, x ∈ s := by
  induction p generalizing s with
  | nil => simp
  | cons d p ih =>
    cases s with
    | nil => simp [HasPrefix] at h
    | cons c s =>
      simp only [HasPrefix, Bool.and_eq_true, beq_iff_eq] at h
      intro x hx
      rcases List.mem_cons.1 hx with rfl | hx
      · rw [h.1]; exact List.mem_cons_self _ _
      · exact List.mem_cons_of_mem _ (ih s h.2 x hx)

theorem index_none_of_not_mem (x : UInt8) (s sep : GoString) (hsep : x ∈ sep) (hs : x ∉ s) :
    Index s sep = none := by
  induction s with
  | nil =>
    rw [index_nil]
    cases sep with
    | nil => simp at hsep
    | cons d p => simp [HasPrefix]
  | cons c s ih =>
    rw [index_cons_none_iff]
    refine ⟨?_, ih (fun h => hs (List.mem_cons_of_mem _ h))⟩
    cases hp : HasPrefix (c :: s) sep with
    | false => rfl
    | true => exact absurd (hasPrefix_mem _ _ hp x hsep) hs

theorem not_mem_of_contains_slash (value : GoString) (h : Contains value slash = false) :
    (47 : UInt8) ∉ value := by
  have h' : Index value [47] = none := by simpa [Contains] using h
  exact (index_one_none_iff 47 value).1 h'

theorem last_part_echo (value : GoString) (h : (47 : UInt8) ∉ value) (r : Request)
    (hpath : r.path = lit "/echo/" ++ value) : r.GetLastPartOfPath = value := by
  have hs : Split r.path slash = [[], lit "echo", value] := by
    have e : r.path = [] ++ 47 :: (lit "echo" ++ 47 :: value) := by rw [hpath]; rfl
    show Split r.path [47] = _
    rw [e, split_append_one 47 [] _ (by simp), split_append_one 47 (lit "echo") value (by decide),
      split_of_index_none value [47] ((index_one_none_iff 47 value).2 h)]
  simp [Request.GetLastPartOfPath, hs]

/-- C7 (as stated, refuted): the value `user-agent` is not empty and holds
neither `/` nor white space, yet a request for `/echo/user-agent` is answered
by the user-agent handler, with the `User-Agent` header as the body. -/
theorem echo_user_agent :
    Contains (lit "user-agent") slash = false ∧
    Fields (lit "user-agent") = [lit "user-agent"] ∧
    (processConnection RangeOrder.stored [] FileStore.blank
        (lit "GET /echo/user-agent HTTP/1.1\r\nUser-Agent: curl\r\n\r\n")).map Prod.fst
      = some (lit
        "HTTP/1.1 200 OK\r\nContent-Type: text/plain\r\nContent-Length: 4\r\n\r\ncurl\r\n\r\n") := by
  decide

/-- C7 (amended): for every method and every non-empty value without `/` that
does not begin with `user-agent`, a request whose path is `/echo/` followed by
the value is answered with status 200, the header `Content-Type: text/plain`
(next to `Content-Length`, in either order) and the value as the body; the
file system is left as it was. -/
theorem echo_response (ord : RangeOrder) (args : List GoString) (fs : FileStore)
    (req : Request) (value : GoString)
    (hpath : req.path = lit "/echo/" ++ value) (hne : value ≠ [])
    (hslash : Contains value slash = false)
    (hua : HasPrefix value (lit "user-agent") = false) :
    dispatch ord args fs req =
      (NewResponseString ord 200 (some (GoMap.empty.set (lit "Content-Type") (lit "text/plain")))
        value, fs) ∧
    ((dispatch ord args fs req).1 =
        lit "HTTP/1.1 200 OK\r\n" ++ lit "Content-Type: text/plain\r\n" ++
          (lit "Content-Length: " ++ itoa value.length ++ lit "\r\n") ++
          lit "\r\n" ++ value ++ lit "\r\n\r\n" ∨
      (dispatch ord args fs req).1 =
        lit "HTTP/1.1 200 OK\r\n" ++
          (lit "Content-Length: " ++ itoa value.length ++ lit "\r\n") ++
          lit "Content-Type: text/plain\r\n" ++
          lit "\r\n" ++ value ++ lit "\r\n\r\n") := by
  have h47 := not_mem_of_contains_slash value hslash
  have e : req.path = 47 :: 101 :: 99 :: 104 :: 111 :: 47 :: value := by rw [hpath]; rfl
  have hroot : req.path ≠ lit "/" := by
    rw [e]
    intro h
    have h' : (47 :: 101 :: 99 :: 104 :: 111 :: 47 :: value : GoString) = [47] := h
    simp at h'
  have hfiles : Contains req.path (lit "/files/") = false := by
    have h1 : Index value [47, 102, 105, 108, 101, 115, 47] = none :=
      index_none_of_not_mem 47 value _ (by simp) h47
    have h2 : HasPrefix value [102, 105, 108, 101, 115, 47] = false := by
      cases hp : HasPrefix value [102, 105, 108, 101, 115, 47] with
      | false => rfl
      | true => exact absurd (hasPrefix_mem _ _ hp 47 (by simp)) h47
    have : Index req.path [47, 102, 105, 108, 101, 115, 47] = none := by
      rw [e]
      simp [index_cons_none_iff, HasPrefix, h1, h2]
    show (Index req.path [47, 102, 105, 108, 101, 115, 47]).isSome = false
    rw [this]; rfl
  have hagent : Contains req.path (lit "/user-agent") = false := by
    have h1 : Index value [47, 117, 115, 101, 114, 45, 97, 103, 101, 110, 116] = none :=
      index_none_of_not_mem 47 value _ (by simp) h47
    have h2 : HasPrefix value [117, 115, 101, 114, 45, 97, 103, 101, 110, 116] = false := hua
    have : Index req.path [47, 117, 115, 101, 114, 45, 97, 103, 101, 110, 116] = none := by
      rw [e]
      simp [index_cons_none_iff, HasPrefix, h1, h2]
    show (Index req.path [47, 117, 115, 101, 114, 45, 97, 103, 101, 110, 116]).isSome = false
    rw [this]; rfl
  have hecho : Contains req.path (lit "/echo/") = true := by
    show (Index req.path [47, 101, 99, 104, 111, 47]).isSome = true
    rw [e, index_cons]
    simp [HasPrefix]
  have hd : dispatch ord args fs req =
      (NewResponseString ord 200 (some (GoMap.empty.set (lit "Content-Type") (lit "text/plain")))
        value, fs) := by
    unfold dispatch
    rw [if_neg hroot]
    simp only [hfiles, hagent, hecho, Bool.false_eq_true, if_false, not_true_eq_false,
      last_part_echo value h47 req hpath]
  refine ⟨hd, ?_⟩
  rw [hd]
  exact response_header_body ord 200 (lit "Content-Type") (lit "text/plain") value (by decide) hne

/-- C7 (amended) at a concrete input: `PUT /echo/abc`. -/
theorem echo_response_witness :
    dispatch RangeOrder.reversed [] FileStore.blank
        (Request.mk (lit "PUT") [] [] (lit "/echo/abc") [] GoMap.empty []) =
      (NewResponseString RangeOrder.reversed 200
        (some (GoMap.empty.set (lit "Content-Type") (lit "text/plain"))) (lit "abc"),
        FileStore.blank) ∧
    NewResponseString RangeOrder.reversed 200
        (some (GoMap.empty.set (lit "Content-Type") (lit "text/plain"))) (lit "abc") =
      lit "HTTP/1.1 200 OK\r\nContent-Length: 3\r\nContent-Type: text/plain\r\n\r\nabc\r\n\r\n" :=
  ⟨(echo_response RangeOrder.reversed [] FileStore.blank
      (Request.mk (lit "PUT") [] [] (lit "/echo/abc") [] GoMap.empty []) (lit "abc")
      (by decide) (by decide) (by decide) (by decide)).1, by decide⟩

theorem scanLine_empty (st : GoMap × GoString) : scanLine st [] = st := by
  have h : Split [] colonSpace = [[]] := by decide
  simp [scanLine, h]

theorem scanLine_header (st : GoMap × GoString) (name value : GoString)
    (hn : Index name colonSpace = none) (hv : Index value colonSpace = none) :
    scanLine st (name ++ colonSpace ++ value) = (st.1.set name value, st.2) := by
  have h : Split (name ++ colonSpace ++ value) colonSpace = [name, value] := by
    show Split (name ++ [58, 32] ++ value) [58, 32] = _
    rw [List.append_assoc]
    show Split (name ++ 58 :: 32 :: value) [58, 32] = _
    have h2 : Split value [58, 32] = [value] := split_of_index_none value _ hv
    rw [split_append_two 58 32 (by decide) name value hn, h2]
  unfold scanLine
  rw [h]

theorem user_agent_request (v : GoString) (hcrlf : Contains v CRLF = false)
    (hcs : Contains v colonSpace = false) :
    NewRequest (lit "GET /user-agent HTTP/1.1\r\nUser-Agent: " ++ v ++ lit "\r\n\r\n") =
      some (Request.mk (lit "GET") [] [] (lit "/user-agent") []
        (GoMap.empty.set (lit "User-Agent") v) []) := by
  have hv1 : Index v [13, 10] = none := by
    have : Index v CRLF = none := by simpa [Contains] using hcrlf
    exact this
  have hv2 : Index v colonSpace = none := by simpa [Contains] using hcs
  have e : lit "GET /user-agent HTTP/1.1\r\nUser-Agent: " ++ v ++ lit "\r\n\r\n"
      = lit "GET /user-agent HTTP/1.1" ++ 13 :: 10 ::
          ((lit "User-Agent: " ++ v) ++ 13 :: 10 :: ([] ++ 13 :: 10 :: [])) := by
    have e1 : lit "GET /user-agent HTTP/1.1\r\nUser-Agent: "
        = lit "GET /user-agent HTTP/1.1" ++ 13 :: 10 :: lit "User-Agent: " := by decide
    have e2 : lit "\r\n\r\n" = 13 :: 10 :: ([] ++ 13 :: 10 :: []) := by decide
    rw [e1, e2]
    simp only [List.append_assoc, List.cons_append, List.nil_append]
  have hline : Index (lit "User-Agent: " ++ v) [13, 10] = none := by
    have : lit "User-Agent: " ++ v
        = 85 :: 115 :: 101 :: 114 :: 45 :: 65 :: 103 :: 101 :: 110 :: 116 :: 58 :: 32 :: v := rfl
    rw [this]
    simp [index_cons_none_iff, HasPrefix, hv1]
  have hs : Split (lit "GET /user-agent HTTP/1.1\r\nUser-Agent: " ++ v ++ lit "\r\n\r\n") CRLF
      = [lit "GET /user-agent HTTP/1.1", lit "User-Agent: " ++ v, [], []] := by
    show Split _ [13, 10] = _
    rw [e, split_append_two 13 10 (by decide) _ _ (by decide),
      split_append_two 13 10 (by decide) _ _ hline,
      split_append_two 13 10 (by decide) [] [] (by decide)]
    have : Split [] [13, 10] = [[]] := by decide
    rw [this]
  have hf : Fields (lit "GET /user-agent HTTP/1.1")
      = [lit "GET", lit "/user-agent", lit "HTTP/1.1"] := by decide
  rw [NewRequest_of_fields _ _ _ _ _ _ hs hf]
  have hua : lit "User-Agent: " ++ v = lit "User-Agent" ++ colonSpace ++ v := rfl
  simp only [List.foldl_cons, List.foldl_nil, scanLine_empty, hua,
    scanLine_header _ (lit "User-Agent") v (by decide) hv2]

theorem dispatch_user_agent (ord : RangeOrder) (args : List GoString) (fs : FileStore)
    (req : Request) (hagent : Contains req.path (lit "/user-agent") = true)
    (hfiles : Contains req.path (lit "/files/") = false) :
    dispatch ord args fs req =
      (NewResponseString ord 200 (some (GoMap.empty.set (lit "Content-Type") (lit "text/plain")))
        (req.GetHeader (lit "User-Agent")).1, fs) := by
  have hroot : req.path ≠ lit "/" := by
    intro h
    rw [h] at hagent
    exact absurd hagent (by decide)
  unfold dispatch
  rw [if_neg hroot]
  simp only [hfiles, hagent, Bool.false_eq_true, if_false, if_true]

/-- C8: for every `v` without `\r\n` and without `: `, the request
`GET /user-agent HTTP/1.1\r\nUser-Agent: v\r\n\r\n` is answered with status
200, the header `Content-Type: text/plain` and the body `v`, with a
`Content-Length` header (before or after `Content-Type`) holding the byte
length of `v` when `v` is not empty; and a request without a `User-Agent`
header whose path contains `/user-agent` and not `/files/` is answered with
status 200, `Content-Type: text/plain` and an empty body. -/
theorem user_agent_response (ord : RangeOrder) (args : List GoString) (fs : FileStore) :
    (∀ v : GoString, Contains v CRLF = false → Contains v colonSpace = false →
      processConnection ord args fs
          (lit "GET /user-agent HTTP/1.1\r\nUser-Agent: " ++ v ++ lit "\r\n\r\n") =
        some (NewResponseString ord 200
          (some (GoMap.empty.set (lit "Content-Type") (lit "text/plain"))) v, fs) ∧
      (v = [] → NewResponseString ord 200
          (some (GoMap.empty.set (lit "Content-Type") (lit "text/plain"))) v =
        lit "HTTP/1.1 200 OK\r\nContent-Type: text/plain\r\n\r\n\r\n\r\n") ∧
      (v ≠ [] →
        NewResponseString ord 200
            (some (GoMap.empty.set (lit "Content-Type") (lit "text/plain"))) v =
          lit "HTTP/1.1 200 OK\r\n" ++ lit "Content-Type: text/plain\r\n" ++
            (lit "Content-Length: " ++ itoa v.length ++ lit "\r\n") ++
            lit "\r\n" ++ v ++ lit "\r\n\r\n" ∨
        NewResponseString ord 200
            (some (GoMap.empty.set (lit "Content-Type") (lit "text/plain"))) v =
          lit "HTTP/1.1 200 OK\r\n" ++
            (lit "Content-Length: " ++ itoa v.length ++ lit "\r\n") ++
            lit "Content-Type: text/plain\r\n" ++
            lit "\r\n" ++ v ++ lit "\r\n\r\n")) ∧
    (∀ req : Request, Contains req.path (lit "/user-agent") = true →
      Contains req.path (lit "/files/") = false →
      req.headers.get (lit "User-Agent") = none →
      dispatch ord args fs req =
        (lit "HTTP/1.1 200 OK\r\nContent-Type: text/plain\r\n\r\n\r\n\r\n", fs)) := by
  have hempty : NewResponseString ord 200
      (some (GoMap.empty.set (lit "Content-Type") (lit "text/plain"))) [] =
      lit "HTTP/1.1 200 OK\r\nContent-Type: text/plain\r\n\r\n\r\n\r\n" := by
    rw [response_one_header]; decide
  constructor
  · intro v hcrlf hcs
    refine ⟨?_, ?_, ?_⟩
    · unfold processConnection
      have h1 : Contains (lit "/user-agent") (lit "/user-agent") = true := by decide
      have h2 : Contains (lit "/user-agent") (lit "/files/") = false := by decide
      rw [user_agent_request v hcrlf hcs, Option.map_some',
        dispatch_user_agent ord args fs _ h1 h2]
      simp [Request.GetHeader, GoMap.get_set]
    · rintro rfl
      exact hempty
    · intro hne
      exact response_header_body ord 200 (lit "Content-Type") (lit "text/plain") v (by decide) hne
  · intro req hagent hfiles hnone
    rw [dispatch_user_agent ord args fs req hagent hfiles]
    simp only [Request.GetHeader, hnone, hempty]

/-- C8 at concrete inputs: `v = "test-client"`, and the request
`GET /user-agent` without headers. -/
theorem user_agent_response_witness :
    processConnection RangeOrder.stored [] FileStore.blank
        (lit "GET /user-agent HTTP/1.1\r\nUser-Agent: " ++ lit "test-client" ++ lit "\r\n\r\n") =
      some (NewResponseString RangeOrder.stored 200
        (some (GoMap.empty.set (lit "Content-Type") (lit "text/plain"))) (lit "test-client"),
        FileStore.blank) ∧
    NewResponseString RangeOrder.stored 200
        (some (GoMap.empty.set (lit "Content-Type") (lit "text/plain"))) (lit "test-client") =
      lit ("HTTP/1.1 200 OK\r\nContent-Type: text/plain\r\nContent-Length: 11\r\n\r\n" ++
        "test-client\r\n\r\n") ∧
    dispatch RangeOrder.stored [] FileStore.blank
        (Request.mk (lit "GET") [] [] (lit "/user-agent") [] GoMap.empty []) =
      (lit "HTTP/1.1 200 OK\r\nContent-Type: text/plain\r\n\r\n\r\n\r\n", FileStore.blank) :=
  ⟨((user_agent_response RangeOrder.stored [] FileStore.blank).1 (lit "test-client")
      (by decide) (by decide)).1,
    by decide,
    (user_agent_response RangeOrder.stored [] FileStore.blank).2
      (Request.mk (lit "GET") [] [] (lit "/user-agent") [] GoMap.empty [])
      (by decide) (by decide) (by decide)⟩

/-! ## The header loop of the parser -/

theorem occurrences_eq_zero_iff (sep s : GoString) :
    occurrences sep s = 0 ↔ Index s sep = none := by
  induction s with
  | nil =>
    rw [index_nil, occurrences]
    cases HasPrefix [] sep <;> simp
  | cons c s ih =>
    rw [index_cons_none_iff, occurrences, ← ih]
    cases HasPrefix (c :: s) sep <;> simp

theorem occurrences_append_two (x y : UInt8) (hxy : x ≠ y) (a b : GoString) :
    occurrences [x, y] (a ++ x :: y :: b) = occurrences [x, y] a + 1 + occurrences [x, y] b := by
  induction a with
  | nil =>
    have hyx : ¬ y = x := fun e => hxy e.symm
    have h0 : occurrences [x, y] [] = 0 := by simp [occurrences, HasPrefix]
    rw [List.nil_append, h0]
    rw [occurrences, occurrences]
    simp [HasPrefix, hyx]
  | cons c a ih =>
    rw [List.cons_append, occurrences, ih, occurrences]
    have : HasPrefix (c :: (a ++ x :: y :: b)) [x, y] = HasPrefix (c :: a) [x, y] := by
      cases a with
      | nil =>
        by_cases hc : c = x
        · simp [HasPrefix, hc, hxy]
        · simp [HasPrefix, hc]
      | cons d a => simp [HasPrefix]
    rw [this]
    omega

/-- `Split` on a two-byte separator returns exactly two strings when the
line holds exactly one occurrence of the separator, and they are the text
before and the text after it. -/
theorem split_pair_iff (x y : UInt8) (hxy : x ≠ y) (line name value : GoString) :
    Split line [x, y] = [name, value] ↔
      occurrences [x, y] line = 1 ∧ line = name ++ x :: y :: value := by
  constructor
  · intro h
    rcases split_two_cases x y line with ⟨_, h1⟩ | ⟨a, b, rfl, ha, h1⟩
    · rw [h1] at h; simp at h
    · rw [h1] at h
      simp only [List.cons.injEq] at h
      obtain ⟨rfl, hb⟩ := h
      rcases split_two_cases x y b with ⟨hb0, h2⟩ | ⟨a', b', _, _, h2⟩
      · rw [h2] at hb
        simp only [List.cons.injEq, and_true] at hb
        subst hb
        refine ⟨?_, rfl⟩
        rw [occurrences_append_two x y hxy, (occurrences_eq_zero_iff _ _).2 ha,
          (occurrences_eq_zero_iff _ _).2 hb0]
      · rw [h2] at hb
        simp only [List.cons.injEq] at hb
        exact absurd hb.2 (split_ne_nil _ _)
  · rintro ⟨hocc, rfl⟩
    rw [occurrences_append_two x y hxy] at hocc
    have hn : Index name [x, y] = none := (occurrences_eq_zero_iff _ _).1 (by omega)
    have hv : Index value [x, y] = none := (occurrences_eq_zero_iff _ _).1 (by omega)
    rw [split_append_two x y hxy name value hn, split_of_index_none value _ hv]

theorem split_pair_of_one (x y : UInt8) (hxy : x ≠ y) (line : GoString)
    (h : occurrences [x, y] line = 1) : ∃ name value, Split line [x, y] = [name, value] := by
  cases hi : Index line [x, y] with
  | none => rw [(occurrences_eq_zero_iff _ _).2 hi] at h; omega
  | some m =>
    obtain ⟨a, b, rfl, _, _⟩ := index_two_inv x y line m hi
    exact ⟨a, b, (split_pair_iff x y hxy _ a b).2 ⟨h, rfl⟩⟩

theorem scanLine_get (st : GoMap × GoString) (line name value : GoString) :
    (scanLine st line).1.get name = some value ↔
      Split line colonSpace = [name, value] ∨
      (st.1.get name = some value ∧ ∀ v, Split line colonSpace ≠ [name, v]) := by
  unfold scanLine
  split
  · rename_i n v heq
    rw [heq]
    simp only [GoMap.get_set]
    by_cases hn : name = n
    · subst hn
      simp only [if_true, Option.some.injEq, List.cons.injEq, true_and, and_true]
      constructor
      · intro h; exact Or.inl h
      · rintro (h | ⟨_, h⟩)
        · exact h
        · exact absurd rfl (h v)
    · have hn' : ¬ n = name := fun e => hn e.symm
      simp [hn, hn']
  · rename_i hno
    have h1 : (if line.length > 0 then (st.1, line) else st).1 = st.1 := by
      split <;> rfl
    rw [h1]
    constructor
    · intro h
      exact Or.inr ⟨h, fun v hv => hno name v hv⟩
    · rintro (h | ⟨h, _⟩)
      · exact absurd h (hno name value)
      · exact h

theorem foldl_scanLine_get (ls : List GoString) (st : GoMap × GoString) (name value : GoString) :
    (ls.foldl scanLine st).1.get name = some value ↔
      (∃ pre line post, ls = pre ++ line :: post ∧ Split line colonSpace = [name, value] ∧
        ∀ l ∈ post, ∀ v, Split l colonSpace ≠ [name, v]) ∨
      (st.1.get name = some value ∧ ∀ l ∈ ls, ∀ v, Split l colonSpace ≠ [name, v]) := by
  induction ls generalizing st with
  | nil => simp
  | cons l ls ih =>
    rw [List.foldl_cons, ih, scanLine_get]
    constructor
    · rintro (⟨pre, line, post, rfl, h1, h2⟩ | ⟨h1 | ⟨h1, h3⟩, h2⟩)
      · exact Or.inl ⟨l :: pre, line, post, rfl, h1, h2⟩
      · exact Or.inl ⟨[], l, ls, rfl, h1, h2⟩
      · refine Or.inr ⟨h1, ?_⟩
        intro l' hl'
        rcases List.mem_cons.1 hl' with rfl | hl'
        · exact h3
        · exact h2 l' hl'
    · rintro (⟨pre, line, post, heq, h1, h2⟩ | ⟨h1, h2⟩)
      · cases pre with
        | nil =>
          simp only [List.nil_append, List.cons.injEq] at heq
          obtain ⟨rfl, rfl⟩ := heq
          exact Or.inr ⟨Or.inl h1, h2⟩
        | cons p pre =>
          simp only [List.cons_append, List.cons.injEq] at heq
          obtain ⟨rfl, rfl⟩ := heq
          exact Or.inl ⟨pre, line, post, rfl, h1, h2⟩
      · exact Or.inr ⟨Or.inr ⟨h1, h2 l (List.mem_cons_self _ _)⟩,
          fun l' hl' => h2 l' (List.mem_cons_of_mem _ hl')⟩

theorem GoMap.get_empty (name : GoString) : GoMap.empty.get name = none := rfl

theorem NewRequest_eq_some (raw : GoString) (r : Request) (h : NewRequest raw = some r) :
    r.headers = ((Split raw CRLF).drop 1 |>.foldl scanLine (GoMap.empty, [])).1 ∧
    r.body = ((Split raw CRLF).drop 1 |>.foldl scanLine (GoMap.empty, [])).2 := by
  obtain ⟨line0, rest, hs⟩ := split_crlf_cons raw
  cases hf : Fields line0 with
  | nil => simp [NewRequest, hs, hf] at h
  | cons a l =>
    cases l with
    | nil => simp [NewRequest, hs, hf] at h
    | cons b l =>
      rw [NewRequest_of_fields raw line0 rest a b l hs hf] at h
      simp only [Option.some.injEq] at h
      subst h
      simp [hs]

/-- C5: in the request `NewRequest` returns, the header map holds
`name -> value` exactly when some line after the request line holds exactly
one occurrence of `": "`, with `name` before it and `value` after it, and no
later line is such a line with the same name; a line whose number of
occurrences of `": "` is not one leaves the header map as it is. -/
theorem NewRequest_headers (raw : GoString) (r : Request) (h : NewRequest raw = some r) :
    (∀ name value : GoString,
      r.headers.get name = some value ↔
        ∃ pre line post, (Split raw CRLF).drop 1 = pre ++ line :: post ∧
          occurrences colonSpace line = 1 ∧ line = name ++ colonSpace ++ value ∧
          ∀ l ∈ post, ∀ v, ¬ (occurrences colonSpace l = 1 ∧ l = name ++ colonSpace ++ v)) ∧
    (∀ (st : GoMap × GoString) (line : GoString),
      occurrences colonSpace line ≠ 1 → (scanLine st line).1 = st.1) := by
  have hpair : ∀ line name value : GoString, Split line colonSpace = [name, value] ↔
      (occurrences colonSpace line = 1 ∧ line = name ++ colonSpace ++ value) := by
    intro line name value
    have := split_pair_iff 58 32 (by decide) line name value
    simpa [colonSpace, List.append_assoc] using this
  constructor
  · intro name value
    rw [(NewRequest_eq_some raw r h).1, foldl_scanLine_get]
    simp only [GoMap.get_empty, reduceCtorEq, false_and, or_false, hpair, Ne]
    constructor
    · rintro ⟨pre, line, post, h1, ⟨h2, h3⟩, h4⟩
      exact ⟨pre, line, post, h1, h2, h3, h4⟩
    · rintro ⟨pre, line, post, h1, h2, h3, h4⟩
      exact ⟨pre, line, post, h1, ⟨h2, h3⟩, h4⟩
  · intro st line hocc
    unfold scanLine
    split
    · rename_i n v heq
      exact absurd ((hpair line n v).1 heq).1 hocc
    · split <;> rfl

/-- C5 at a concrete input: `Host` is sent twice and the line `X: 1: 2` holds
two separators; the map holds `Host -> b` and nothing for `X`. -/
theorem NewRequest_headers_witness :
    (NewRequest (lit "GET / HTTP/1.1\r\nHost: a\r\nX: 1: 2\r\nHost: b\r\n\r\n")).map
        (fun r => (r.headers.get (lit "Host"), r.headers.get (lit "X")))
      = some (some (lit "b"), none) ∧
    ∃ r, NewRequest (lit "GET / HTTP/1.1\r\nHost: a\r\nX: 1: 2\r\nHost: b\r\n\r\n") = some r ∧
      ∀ name value : GoString,
        r.headers.get name = some value ↔
          ∃ pre line post,
            (Split (lit "GET / HTTP/1.1\r\nHost: a\r\nX: 1: 2\r\nHost: b\r\n\r\n") CRLF).drop 1
              = pre ++ line :: post ∧
            occurrences colonSpace line = 1 ∧ line = name ++ colonSpace ++ value ∧
            ∀ l ∈ post, ∀ v,
              ¬ (occurrences colonSpace l = 1 ∧ l = name ++ colonSpace ++ v) :=
  ⟨by decide,
    _,
    NewRequest_of_fields (lit "GET / HTTP/1.1\r\nHost: a\r\nX: 1: 2\r\nHost: b\r\n\r\n")
      (lit "GET / HTTP/1.1") [lit "Host: a", lit "X: 1: 2", lit "Host: b", [], []]
      (lit "GET") (lit "/") [lit "HTTP/1.1"] (by decide) (by decide),
    (NewRequest_headers (lit "GET / HTTP/1.1\r\nHost: a\r\nX: 1: 2\r\nHost: b\r\n\r\n") _
      (NewRequest_of_fields (lit "GET / HTTP/1.1\r\nHost: a\r\nX: 1: 2\r\nHost: b\r\n\r\n")
        (lit "GET / HTTP/1.1") [lit "Host: a", lit "X: 1: 2", lit "Host: b", [], []]
        (lit "GET") (lit "/") [lit "HTTP/1.1"] (by decide) (by decide))).1⟩

theorem scanLine_of_pair (st : GoMap × GoString) (line n v : GoString)
    (h : Split line colonSpace = [n, v]) : scanLine st line = (st.1.set n v, st.2) := by
  unfold scanLine
  rw [h]

theorem scanLine_of_not_pair (st : GoMap × GoString) (line : GoString)
    (h : ∀ n v, Split line colonSpace ≠ [n, v]) :
    scanLine st line = if line.length > 0 then (st.1, line) else st := by
  unfold scanLine
  split
  · rename_i n v heq
    exact absurd heq (h n v)
  · rfl

theorem foldl_scanLine_headers_only (hs : List GoString) (st : GoMap × GoString)
    (h : ∀ l ∈ hs, occurrences colonSpace l = 1) : (hs.foldl scanLine st).2 = st.2 := by
  induction hs generalizing st with
  | nil => rfl
  | cons l hs ih =>
    rw [List.foldl_cons, ih _ (fun l' hl' => h l' (List.mem_cons_of_mem _ hl'))]
    obtain ⟨n, v, hnv⟩ := split_pair_of_one 58 32 (by decide) l (h l (List.mem_cons_self _ _))
    rw [scanLine_of_pair st l n v hnv]

theorem split_header_lines (hs : List GoString) (b : GoString)
    (h : ∀ l ∈ hs, Index l [13, 10] = none) (hb : Index b [13, 10] = none) :
    Split (hs.flatMap (fun l => l ++ CRLF) ++ CRLF ++ b) [13, 10] = hs ++ [[], b] := by
  induction hs with
  | nil =>
    show Split ([] ++ 13 :: 10 :: b) [13, 10] = _
    rw [split_append_two 13 10 (by decide) [] b (by decide), split_of_index_none b _ hb]
    rfl
  | cons l hs ih =>
    have e : (l :: hs).flatMap (fun l => l ++ CRLF) ++ CRLF ++ b
        = l ++ 13 :: 10 :: (hs.flatMap (fun l => l ++ CRLF) ++ CRLF ++ b) := by
      simp only [List.flatMap_cons, List.append_assoc]
      rfl
    rw [e, split_append_two 13 10 (by decide) l _ (h l (List.mem_cons_self _ _)),
      ih (fun l' hl' => h l' (List.mem_cons_of_mem _ hl'))]
    rfl

/-- C6 (as stated, refuted): the trailing content `name: bob` after the blank
line is not empty and holds no `\r\n`, yet the body of the parsed request is
empty: the line is stored as the header `name -> bob`. -/
theorem body_line_taken_as_header :
    lit "name: bob" ≠ [] ∧ Contains (lit "name: bob") CRLF = false ∧
    (NewRequest (lit "POST /files/foo.txt HTTP/1.1\r\nHost: localhost\r\n\r\nname: bob")).map
        (fun r => (r.body, r.headers.get (lit "name")))
      = some ([], some (lit "bob")) := by
  decide

/-- C6 (amended): for a request made of a request line with at least two
fields, any number of header lines (lines with exactly one `": "`), a blank
line and one line `b` of trailing content without `\r\n`, `NewRequest`
returns a request whose body is `b` verbatim when `b` does not hold exactly
one `": "` (so the body is empty when there is no trailing content); when `b`
holds exactly one `": "` it is taken as a header and the body is empty. -/
theorem NewRequest_body (reqLine : GoString) (hs : List GoString) (b : GoString)
    (hreq : 2 ≤ (Fields reqLine).length) (hreqc : Contains reqLine CRLF = false)
    (hhs : ∀ l ∈ hs, Contains l CRLF = false ∧ occurrences colonSpace l = 1)
    (hb : Contains b CRLF = false) :
    ∃ r, NewRequest (reqLine ++ CRLF ++ (hs.flatMap (fun l => l ++ CRLF) ++ CRLF ++ b)) = some r ∧
      (occurrences colonSpace b ≠ 1 → r.body = b) ∧
      (occurrences colonSpace b = 1 → r.body = []) := by
  have hidx : ∀ s : GoString, Contains s CRLF = false → Index s [13, 10] = none := by
    intro s hsc
    have : Index s CRLF = none := by simpa [Contains] using hsc
    exact this
  have hs1 : Split (reqLine ++ CRLF ++ (hs.flatMap (fun l => l ++ CRLF) ++ CRLF ++ b)) CRLF
      = reqLine :: (hs ++ [[], b]) := by
    have e : ∀ rest : GoString, reqLine ++ CRLF ++ rest = reqLine ++ 13 :: 10 :: rest := by
      intro rest
      rw [List.append_assoc]
      rfl
    show Split _ [13, 10] = _
    rw [e, split_append_two 13 10 (by decide) reqLine _ (hidx _ hreqc),
      split_header_lines hs b (fun l hl => hidx l (hhs l hl).1) (hidx b hb)]
  obtain ⟨method, path, more, hf⟩ :
      ∃ method path more, Fields reqLine = method :: path :: more := by
    cases hfl : Fields reqLine with
    | nil => rw [hfl] at hreq; simp at hreq
    | cons a l =>
      cases l with
      | nil => rw [hfl] at hreq; simp at hreq
      | cons c l => exact ⟨a, c, l, rfl⟩
  refine ⟨_, NewRequest_of_fields _ _ _ method path more hs1 hf, ?_, ?_⟩
  · intro hocc
    show ((hs ++ [[], b]).foldl scanLine (GoMap.empty, [])).2 = b
    rw [List.foldl_append, List.foldl_cons, List.foldl_cons, List.foldl_nil, scanLine_empty]
    have hbody := foldl_scanLine_headers_only hs (GoMap.empty, []) (fun l hl => (hhs l hl).2)
    have hno : ∀ n v, Split b colonSpace ≠ [n, v] := by
      intro n v heq
      exact hocc ((split_pair_iff 58 32 (by decide) b n v).1 heq).1
    rw [scanLine_of_not_pair _ b hno]
    split
    · rfl
    · rename_i hlen
      rw [hbody]
      have : b = [] := List.length_eq_zero.1 (by omega)
      rw [this]
  · intro hocc
    show ((hs ++ [[], b]).foldl scanLine (GoMap.empty, [])).2 = []
    rw [List.foldl_append, List.foldl_cons, List.foldl_cons, List.foldl_nil, scanLine_empty]
    have hbody := foldl_scanLine_headers_only hs (GoMap.empty, []) (fun l hl => (hhs l hl).2)
    obtain ⟨n, v, hnv⟩ := split_pair_of_one 58 32 (by decide) b hocc
    rw [scanLine_of_pair _ b n v hnv]
    exact hbody

/-- C6 (amended) at a concrete input: a `POST` request with two header lines
and the trailing content `hello`. -/
theorem NewRequest_body_witness :
    (NewRequest (lit "POST /files/foo.txt HTTP/1.1\r\nHost: x\r\nAccept: */*\r\n\r\nhello")).map
        (fun r => r.body) = some (lit "hello") ∧
    ∃ r, NewRequest (lit "POST /files/foo.txt HTTP/1.1" ++ CRLF ++
        ([lit "Host: x", lit "Accept: */*"].flatMap (fun l => l ++ CRLF) ++ CRLF ++ lit "hello"))
        = some r ∧
      (occurrences colonSpace (lit "hello") ≠ 1 → r.body = lit "hello") ∧
      (occurrences colonSpace (lit "hello") = 1 → r.body = []) :=
  ⟨by decide,
    NewRequest_body (lit "POST /files/foo.txt HTTP/1.1") [lit "Host: x", lit "Accept: */*"]
      (lit "hello") (by decide) (by decide) (by decide) (by decide)⟩

/-- C15: a request whose path is exactly `/` is answered with status 200, no
header and an empty body, the bytes `HTTP/1.1 200 OK\r\n\r\n\r\n`, whatever
its method, headers and body; the file system is left as it was. -/
theorem root_response (ord : RangeOrder) (args : List GoString) (fs : FileStore)
    (req : Request) (hpath : req.path = lit "/") :
    dispatch ord args fs req = (lit "HTTP/1.1 200 OK\r\n\r\n\r\n", fs) := by
  have h200 : NewResponseString ord 200 none [] = lit "HTTP/1.1 200 OK\r\n\r\n\r\n" := by
    rw [response_bare]; decide
  unfold dispatch handleRoot
  rw [if_pos hpath, h200]

/-- C15 at a concrete input: a `DELETE` request for `/` with a header and a
body. -/
theorem root_response_witness :
    dispatch RangeOrder.reversed [lit "server"] FileStore.blank
        (Request.mk (lit "DELETE") [] [] (lit "/") []
          (GoMap.empty.set (lit "Host") (lit "x")) (lit "body")) =
      (lit "HTTP/1.1 200 OK\r\n\r\n\r\n", FileStore.blank) :=
  root_response RangeOrder.reversed [lit "server"] FileStore.blank
    (Request.mk (lit "DELETE") [] [] (lit "/") []
      (GoMap.empty.set (lit "Host") (lit "x")) (lit "body")) (by decide)

/-- C16: a request whose path is not `/` and contains none of `/files/`,
`/user-agent` and `/echo/` is answered with status 404, no header and an
empty body, the bytes `HTTP/1.1 404 Not Found\r\n\r\n\r\n`, whatever its
method; the file system is left as it was. -/
theorem not_found_response (ord : RangeOrder) (args : List GoString) (fs : FileStore)
    (req : Request) (hroot : req.path ≠ lit "/")
    (hfiles : Contains req.path (lit "/files/") = false)
    (hagent : Contains req.path (lit "/user-agent") = false)
    (hecho : Contains req.path (lit "/echo/") = false) :
    dispatch ord args fs req = (lit "HTTP/1.1 404 Not Found\r\n\r\n\r\n", fs) := by
  have h404 : NewResponseString ord 404 none [] = lit "HTTP/1.1 404 Not Found\r\n\r\n\r\n" := by
    rw [response_bare]; decide
  unfold dispatch
  rw [if_neg hroot]
  simp only [hfiles, hagent, hecho, Bool.false_eq_true, if_false, not_false_eq_true, if_true,
    h404]

/-- C16 at concrete inputs: the paths `/nonexistent`, `/echo` and `/files`. -/
theorem not_found_response_witness :
    dispatch RangeOrder.stored [] FileStore.blank
        (Request.mk (lit "GET") [] [] (lit "/nonexistent") [] GoMap.empty []) =
      (lit "HTTP/1.1 404 Not Found\r\n\r\n\r\n", FileStore.blank) ∧
    dispatch RangeOrder.stored [] FileStore.blank
        (Request.mk (lit "POST") [] [] (lit "/echo") [] GoMap.empty (lit "x")) =
      (lit "HTTP/1.1 404 Not Found\r\n\r\n\r\n", FileStore.blank) ∧
    dispatch RangeOrder.stored [] FileStore.blank
        (Request.mk (lit "PUT") [] [] (lit "/files") [] GoMap.empty []) =
      (lit "HTTP/1.1 404 Not Found\r\n\r\n\r\n", FileStore.blank) :=
  ⟨not_found_response RangeOrder.stored [] FileStore.blank
      (Request.mk (lit "GET") [] [] (lit "/nonexistent") [] GoMap.empty [])
      (by decide) (by decide) (by decide) (by decide),
    not_found_response RangeOrder.stored [] FileStore.blank
      (Request.mk (lit "POST") [] [] (lit "/echo") [] GoMap.empty (lit "x"))
      (by decide) (by decide) (by decide) (by decide),
    not_found_response RangeOrder.stored [] FileStore.blank
      (Request.mk (lit "PUT") [] [] (lit "/files") [] GoMap.empty [])
      (by decide) (by decide) (by decide) (by decide)⟩

theorem dispatch_files (ord : RangeOrder) (args : List GoString) (fs : FileStore)
    (req : Request) (hfiles : Contains req.path (lit "/files/") = true) :
    dispatch ord args fs req = handleFiles ord args fs req := by
  have hroot : req.path ≠ lit "/" := by
    intro h
    rw [h] at hfiles
    exact absurd hfiles (by decide)
  unfold dispatch
  rw [if_neg hroot, if_pos hfiles]

/-- C11: a request whose path contains `/files/` and whose method is neither
`GET` nor `POST` (compared byte by byte) is answered with status 405, no
header and an empty body, whatever the arguments of the program and the file
system are, and the file system is left as it was. -/
theorem files_method_not_allowed (ord : RangeOrder) (args : List GoString) (fs : FileStore)
    (req : Request) (hfiles : Contains req.path (lit "/files/") = true)
    (hget : req.method ≠ lit "GET") (hpost : req.method ≠ lit "POST") :
    dispatch ord args fs req = (lit "HTTP/1.1 405 Method Not Allowed\r\n\r\n\r\n", fs) := by
  have h405 : NewResponseString ord 405 none []
      = lit "HTTP/1.1 405 Method Not Allowed\r\n\r\n\r\n" := by
    rw [response_bare]; decide
  rw [dispatch_files ord args fs req hfiles]
  unfold handleFiles
  rw [if_neg hget, if_neg hpost, h405]

/-- C11 at concrete inputs: `get` in lower case without a serving directory,
`DELETE` with a serving directory and the file present. -/
theorem files_method_not_allowed_witness :
    dispatch RangeOrder.stored [lit "server"] FileStore.blank
        (Request.mk (lit "get") [] [] (lit "/files/a.txt") [] GoMap.empty []) =
      (lit "HTTP/1.1 405 Method Not Allowed\r\n\r\n\r\n", FileStore.blank) ∧
    dispatch RangeOrder.stored [lit "server", lit "--directory", lit "/tmp/data/"]
        (FileStore.single (lit "/tmp/data/a.txt") (lit "hi"))
        (Request.mk (lit "DELETE") [] [] (lit "/files/a.txt") [] GoMap.empty (lit "x")) =
      (lit "HTTP/1.1 405 Method Not Allowed\r\n\r\n\r\n",
        FileStore.single (lit "/tmp/data/a.txt") (lit "hi")) :=
  ⟨files_method_not_allowed RangeOrder.stored [lit "server"] FileStore.blank
      (Request.mk (lit "get") [] [] (lit "/files/a.txt") [] GoMap.empty [])
      (by decide) (by decide) (by decide),
    files_method_not_allowed RangeOrder.stored [lit "server", lit "--directory", lit "/tmp/data/"]
      (FileStore.single (lit "/tmp/data/a.txt") (lit "hi"))
      (Request.mk (lit "DELETE") [] [] (lit "/files/a.txt") [] GoMap.empty (lit "x"))
      (by decide) (by decide) (by decide)⟩

/-- C18: the dispatch takes the first rule that matches, in the order: the
path is `/`; the path contains `/files/`; the path contains `/user-agent`;
the path contains `/echo/`; otherwise 404.  A path other than `/` that
contains `/files/` gets the answer of the file handler whatever else it
contains, and a path that contains `/user-agent` and not `/files/` gets the
answer of the user-agent handler even if it contains `/echo/`. -/
theorem dispatch_order (ord : RangeOrder) (args : List GoString) (fs : FileStore)
    (req : Request) :
    (req.path = lit "/" → dispatch ord args fs req = (handleRoot ord, fs)) ∧
    (req.path ≠ lit "/" → Contains req.path (lit "/files/") = true →
      dispatch ord args fs req = handleFiles ord args fs req) ∧
    (Contains req.path (lit "/files/") = false →
      Contains req.path (lit "/user-agent") = true →
      dispatch ord args fs req =
        (NewResponseString ord 200
          (some (GoMap.empty.set (lit "Content-Type") (lit "text/plain")))
          (req.GetHeader (lit "User-Agent")).1, fs)) ∧
    (req.path ≠ lit "/" → Contains req.path (lit "/files/") = false →
      Contains req.path (lit "/user-agent") = false →
      Contains req.path (lit "/echo/") = true →
      dispatch ord args fs req =
        (NewResponseString ord 200
          (some (GoMap.empty.set (lit "Content-Type") (lit "text/plain")))
          req.GetLastPartOfPath, fs)) ∧
    (req.path ≠ lit "/" → Contains req.path (lit "/files/") = false →
      Contains req.path (lit "/user-agent") = false →
      Contains req.path (lit "/echo/") = false →
      dispatch ord args fs req = (NewResponseString ord 404 none [], fs)) := by
  refine ⟨?_, ?_, ?_, ?_, ?_⟩
  · intro hroot
    unfold dispatch
    rw [if_pos hroot]
  · intro _ hfiles
    exact dispatch_files ord args fs req hfiles
  · intro hfiles hagent
    exact dispatch_user_agent ord args fs req hagent hfiles
  · intro hroot hfiles hagent hecho
    unfold dispatch
    rw [if_neg hroot]
    simp only [hfiles, hagent, hecho, Bool.false_eq_true, if_false, not_true_eq_false]
  · intro hroot hfiles hagent hecho
    unfold dispatch
    rw [if_neg hroot]
    simp only [hfiles, hagent, hecho, Bool.false_eq_true, if_false, not_false_eq_true, if_true]

/-- C18 at concrete inputs: `/foo/files/bar` and `/echo/files/x` go to the file
handler, `/echo/user-agent` goes to the user-agent handler, `/x/echo/y` to the
echo handler. -/
theorem dispatch_order_witness :
    dispatch RangeOrder.stored [lit "server"] FileStore.blank
        (Request.mk (lit "GET") [] [] (lit "/foo/files/bar") [] GoMap.empty []) =
      handleFiles RangeOrder.stored [lit "server"] FileStore.blank
        (Request.mk (lit "GET") [] [] (lit "/foo/files/bar") [] GoMap.empty []) ∧
    dispatch RangeOrder.stored [lit "server"] FileStore.blank
        (Request.mk (lit "PUT") [] [] (lit "/echo/files/x") [] GoMap.empty []) =
      handleFiles RangeOrder.stored [lit "server"] FileStore.blank
        (Request.mk (lit "PUT") [] [] (lit "/echo/files/x") [] GoMap.empty []) ∧
    (handleFiles RangeOrder.stored [lit "server"] FileStore.blank
        (Request.mk (lit "PUT") [] [] (lit "/echo/files/x") [] GoMap.empty [])).1 =
      lit "HTTP/1.1 405 Method Not Allowed\r\n\r\n\r\n" ∧
    dispatch RangeOrder.stored [lit "server"] FileStore.blank
        (Request.mk (lit "GET") [] [] (lit "/echo/user-agent") []
          (GoMap.empty.set (lit "User-Agent") (lit "curl")) []) =
      (NewResponseString RangeOrder.stored 200
        (some (GoMap.empty.set (lit "Content-Type") (lit "text/plain")))
        ((Request.mk (lit "GET") [] [] (lit "/echo/user-agent") []
          (GoMap.empty.set (lit "User-Agent") (lit "curl")) []).GetHeader
            (lit "User-Agent")).1, FileStore.blank) ∧
    dispatch RangeOrder.stored [lit "server"] FileStore.blank
        (Request.mk (lit "GET") [] [] (lit "/x/echo/y") [] GoMap.empty []) =
      (NewResponseString RangeOrder.stored 200
        (some (GoMap.empty.set (lit "Content-Type") (lit "text/plain")))
        (Request.mk (lit "GET") [] [] (lit "/x/echo/y") [] GoMap.empty []).GetLastPartOfPath,
        FileStore.blank) :=
  ⟨(dispatch_order RangeOrder.stored [lit "server"] FileStore.blank
      (Request.mk (lit "GET") [] [] (lit "/foo/files/bar") [] GoMap.empty [])).2.1
      (by decide) (by decide),
    (dispatch_order RangeOrder.stored [lit "server"] FileStore.blank
      (Request.mk (lit "PUT") [] [] (lit "/echo/files/x") [] GoMap.empty [])).2.1
      (by decide) (by decide),
    by decide,
    (dispatch_order RangeOrder.stored [lit "server"] FileStore.blank
      (Request.mk (lit "GET") [] [] (lit "/echo/user-agent") []
        (GoMap.empty.set (lit "User-Agent") (lit "curl")) [])).2.2.1
      (by decide) (by decide),
    (dispatch_order RangeOrder.stored [lit "server"] FileStore.blank
      (Request.mk (lit "GET") [] [] (lit "/x/echo/y") [] GoMap.empty [])).2.2.2.1
      (by decide) (by decide) (by decide) (by decide)⟩

/-! ## The last part of the path -/

theorem index_one_inv (x : UInt8) (s : GoString) (m : Nat) (h : Index s [x] = some m) :
    ∃ a b, s = a ++ x :: b ∧ a.length = m ∧ x ∉ a := by
  induction s generalizing m with
  | nil => rw [index_nil] at h; simp [HasPrefix] at h
  | cons c s ih =>
    rw [index_cons] at h
    by_cases hp : HasPrefix (c :: s) [x] = true
    · simp only [hp, if_true, Option.some.injEq] at h
      obtain ⟨t, ht⟩ := (hasPrefix_one x _).1 hp
      exact ⟨[], t, by simpa using ht, by simpa using h, by simp⟩
    · simp only [hp, Bool.false_eq_true, if_false, Option.map_eq_some'] at h
      obtain ⟨m', hm', rfl⟩ := h
      obtain ⟨a, b, rfl, rfl, ha⟩ := ih m' hm'
      refine ⟨c :: a, b, rfl, rfl, ?_⟩
      simp only [List.mem_cons, not_or]
      refine ⟨?_, ha⟩
      intro hxc
      apply hp
      rw [hxc]
      simp [HasPrefix]

/-- Every result of `Split` on a one-byte separator: either the string does
not hold the byte, or it is cut at the first one. -/
theorem split_one_cases (x : UInt8) (s : GoString) :
    (x ∉ s ∧ Split s [x] = [s]) ∨
    (∃ a b, s = a ++ x :: b ∧ x ∉ a ∧ Split s [x] = a :: Split b [x]) := by
  cases hi : Index s [x] with
  | none => exact Or.inl ⟨(index_one_none_iff x s).1 hi, split_of_index_none s _ hi⟩
  | some m =>
    right
    obtain ⟨a, b, rfl, rfl, ha⟩ := index_one_inv x s m hi
    exact ⟨a, b, rfl, ha, split_append_one x a b ha⟩

theorem getLast_split_one (x : UInt8) (n : Nat) :
    ∀ s : GoString, s.length < n →
      ∃ pre, s = pre ++ (Split s [x]).getLast (split_ne_nil s [x]) ∧
        (pre = [] ∨ ∃ q, pre = q ++ [x]) ∧
        x ∉ (Split s [x]).getLast (split_ne_nil s [x]) := by
  induction n with
  | zero => intro s hs; omega
  | succ n ih =>
    intro s hs
    rcases split_one_cases x s with ⟨hx, h1⟩ | ⟨a, b, rfl, ha, h1⟩
    · refine ⟨[], ?_, Or.inl rfl, ?_⟩
      · simp [h1]
      · simpa [h1] using hx
    · have hb : b.length < n := by
        simp only [List.length_append, List.length_cons] at hs
        omega
      obtain ⟨pre, hpre, hend, hno⟩ := ih b hb
      have hlast : (Split (a ++ x :: b) [x]).getLast (split_ne_nil _ _)
          = (Split b [x]).getLast (split_ne_nil _ _) := by
        simp only [h1]
        exact List.getLast_cons (split_ne_nil b [x])
      rw [hlast]
      refine ⟨a ++ x :: pre, ?_, ?_, hno⟩
      · rw [List.append_assoc, List.cons_append, ← hpre]
      · right
        rcases hend with rfl | ⟨q, rfl⟩
        · exact ⟨a, rfl⟩
        · exact ⟨a ++ x :: q, by simp⟩

theorem getLastPartOfPath_eq (r : Request) :
    r.GetLastPartOfPath = (Split r.path slash).getLast (split_ne_nil r.path slash) := by
  unfold Request.GetLastPartOfPath
  have hpos : 0 < (Split r.path slash).length := List.length_pos.2 (split_ne_nil _ _)
  simp only [hpos, dif_pos]
  rw [List.getLast_eq_getElem]
  rfl

theorem contains_slash_false_iff (s : GoString) : Contains s slash = false ↔ (47 : UInt8) ∉ s := by
  have : Contains s slash = false ↔ Index s [47] = none := by
    show (Index s [47]).isSome = false ↔ _
    cases Index s [47] <;> simp
  rw [this, index_one_none_iff]

/-- The last part of the path: the path is a prefix that is empty or ends
with `/`, followed by the last part, which holds no `/`. -/
theorem last_part_decomposition (r : Request) :
    (47 : UInt8) ∉ r.GetLastPartOfPath ∧
    ∃ pre, r.path = pre ++ r.GetLastPartOfPath ∧ (pre = [] ∨ ∃ q, pre = q ++ [47]) := by
  obtain ⟨pre, h1, h2, h3⟩ := getLast_split_one 47 (r.path.length + 1) r.path (Nat.lt_succ_self _)
  rw [getLastPartOfPath_eq]
  exact ⟨h3, pre, h1, h2⟩

/-- The text after the last `/` is determined by the decomposition. -/
theorem last_part_unique (pre seg pre' seg' : GoString)
    (h : pre ++ seg = pre' ++ seg')
    (hpre : pre = [] ∨ ∃ q, pre = q ++ [47]) (hpre' : pre' = [] ∨ ∃ q, pre' = q ++ [47])
    (hseg : (47 : UInt8) ∉ seg) (hseg' : (47 : UInt8) ∉ seg') : seg = seg' := by
  rcases List.append_eq_append_iff.1 h with ⟨a, rfl, rfl⟩ | ⟨c, rfl, rfl⟩
  · -- pre' = pre ++ a, seg = a ++ seg'
    rcases hpre' with h0 | ⟨q, hq⟩
    · have : a = [] := (List.append_eq_nil.1 h0).2
      simp [this]
    · cases a using List.reverseRecOn with
      | nil => simp
      | append_singleton a' c =>
        rw [← List.append_assoc] at hq
        have := List.append_inj_right' hq (by simp)
        simp only [List.cons.injEq, and_true] at this
        subst this
        exact absurd (by simp) hseg
  · rcases hpre with h0 | ⟨q, hq⟩
    · have : c = [] := (List.append_eq_nil.1 h0).2
      simp [this]
    · cases c using List.reverseRecOn with
      | nil => simp
      | append_singleton c' d =>
        rw [← List.append_assoc] at hq
        have := List.append_inj_right' hq (by simp)
        simp only [List.cons.injEq, and_true] at this
        subst this
        exact absurd (by simp) hseg'

theorem last_part_of_append (r : Request) (pre seg : GoString)
    (hpath : r.path = pre ++ 47 :: seg) (hseg : (47 : UInt8) ∉ seg) :
    r.GetLastPartOfPath = seg := by
  obtain ⟨h1, pre', h2, h3⟩ := last_part_decomposition r
  have e : pre' ++ r.GetLastPartOfPath = (pre ++ [47]) ++ seg := by
    rw [← h2, hpath]; simp
  exact last_part_unique pre' _ (pre ++ [47]) seg e h3 (Or.inr ⟨pre, rfl⟩) h1 hseg

theorem extractFileDirInfo_three (prog flag d : GoString) (req : Request) :
    extractFileDirInfo [prog, flag, d] req = some (d ++ req.GetLastPartOfPath) := by
  unfold extractFileDirInfo
  simp

theorem extractFileDirInfo_none (args : List GoString) (req : Request) (h : args.length ≠ 3) :
    extractFileDirInfo args req = none := by
  unfold extractFileDirInfo
  simp [h]

theorem extractFileDirInfo_some (args : List GoString) (req : Request) (full : GoString)
    (h : extractFileDirInfo args req = some full) :
    ∃ prog flag d, args = [prog, flag, d] ∧ full = d ++ req.GetLastPartOfPath := by
  by_cases h3 : args.length = 3
  · match args, h3 with
    | [prog, flag, d], _ =>
      rw [extractFileDirInfo_three] at h
      exact ⟨prog, flag, d, rfl, (Option.some.inj h).symm⟩
  · rw [extractFileDirInfo_none args req h3] at h
    exact absurd h (by simp)

/-- C19: `GetLastPartOfPath` returns the text of the path after its last `/`:
the result holds no `/`, the path is a prefix that is empty or ends with `/`
followed by the result, the result is the whole path when the path holds no
`/`, it is empty when the path ends with `/`, and it is `seg` when the path is
`pre ++ "/" ++ seg` with no `/` in `seg`.  `Split` never returns the empty
list, so the branch that returns `""` is never taken.  The paths the file
handlers read and write are the serving directory followed by this result. -/
theorem GetLastPartOfPath_spec (r : Request) :
    Contains r.GetLastPartOfPath slash = false ∧
    (∃ pre, r.path = pre ++ r.GetLastPartOfPath ∧ (pre = [] ∨ ∃ q, pre = q ++ slash)) ∧
    (Contains r.path slash = false → r.GetLastPartOfPath = r.path) ∧
    (∀ q, r.path = q ++ slash → r.GetLastPartOfPath = []) ∧
    (∀ pre seg, r.path = pre ++ slash ++ seg → Contains seg slash = false →
      r.GetLastPartOfPath = seg) ∧
    0 < (Split r.path slash).length ∧
    (∀ args full, extractFileDirInfo args r = some full →
      ∃ prog flag d, args = [prog, flag, d] ∧ full = d ++ r.GetLastPartOfPath) ∧
    (∀ ord args fs q, (handleFiles ord args fs r).2.file q ≠ fs.file q →
      ∃ prog flag d, args = [prog, flag, d] ∧ q = d ++ r.GetLastPartOfPath) := by
  obtain ⟨h1, pre, h2, h3⟩ := last_part_decomposition r
  refine ⟨(contains_slash_false_iff _).2 h1, ⟨pre, h2, h3⟩, ?_, ?_, ?_,
    List.length_pos.2 (split_ne_nil _ _), ?_, ?_⟩
  · intro hno
    have hno' := (contains_slash_false_iff _).1 hno
    have e : pre ++ r.GetLastPartOfPath = [] ++ r.path := by rw [← h2]; rfl
    exact last_part_unique pre _ [] r.path e h3 (Or.inl rfl) h1 hno'
  · intro q hq
    have hq' : r.path = q ++ 47 :: [] := hq
    exact last_part_of_append r q [] hq' (by simp)
  · intro pre' seg hp hseg
    have hp' : r.path = pre' ++ 47 :: seg := by
      rw [hp, List.append_assoc]; rfl
    exact last_part_of_append r pre' seg hp' ((contains_slash_false_iff _).1 hseg)
  · intro args full h
    exact extractFileDirInfo_some args r full h
  · intro ord args fs q hq
    unfold handleFiles at hq
    split_ifs at hq with hg hp h3
    · exfalso
      revert hq
      split
      · simp
      · split_ifs <;> simp
    · match args, h3 with
      | [prog, flag, d], _ =>
        refine ⟨prog, flag, d, rfl, ?_⟩
        by_contra hne
        apply hq
        simp only [List.get_eq_getElem, List.getElem_cons_succ, List.getElem_cons_zero,
          FileStore.WriteFile]
        split_ifs <;> simp [hne]
    · exact absurd rfl hq
    · exact absurd rfl hq

/-- C19 at concrete inputs: the paths `/files/a/b.txt`, `nofile`, `/files/`
and `/files/..`. -/
theorem GetLastPartOfPath_spec_witness :
    (Request.mk [] [] [] (lit "/files/a/b.txt") [] GoMap.empty []).GetLastPartOfPath
      = lit "b.txt" ∧
    (Request.mk [] [] [] (lit "nofile") [] GoMap.empty []).GetLastPartOfPath = lit "nofile" ∧
    (Request.mk [] [] [] (lit "/files/") [] GoMap.empty []).GetLastPartOfPath = [] ∧
    (Request.mk [] [] [] (lit "/files/..") [] GoMap.empty []).GetLastPartOfPath = lit ".." ∧
    (∃ prog flag d, [lit "server", lit "--directory", lit "/tmp/data/"] = [prog, flag, d] ∧
      lit "/tmp/data/.." = d ++
        (Request.mk (lit "GET") [] [] (lit "/files/..") [] GoMap.empty []).GetLastPartOfPath) ∧
    (∃ prog flag d, [lit "server", lit "--directory", lit "/tmp/data/"] = [prog, flag, d] ∧
      lit "/tmp/data/b.txt" = d ++
        (Request.mk (lit "POST") [] [] (lit "/files/a/b.txt") [] GoMap.empty
          (lit "hello")).GetLastPartOfPath) :=
  ⟨(GetLastPartOfPath_spec (Request.mk [] [] [] (lit "/files/a/b.txt") [] GoMap.empty [])).2.2.2.2.1
      (lit "/files/a") (lit "b.txt") (by decide) (by decide),
    (GetLastPartOfPath_spec (Request.mk [] [] [] (lit "nofile") [] GoMap.empty [])).2.2.1
      (by decide),
    (GetLastPartOfPath_spec (Request.mk [] [] [] (lit "/files/") [] GoMap.empty [])).2.2.2.1
      (lit "/files") (by decide),
    by decide,
    (GetLastPartOfPath_spec
      (Request.mk (lit "GET") [] [] (lit "/files/..") [] GoMap.empty [])).2.2.2.2.2.2.1
      [lit "server", lit "--directory", lit "/tmp/data/"] (lit "/tmp/data/..") (by decide),
    (GetLastPartOfPath_spec
      (Request.mk (lit "POST") [] [] (lit "/files/a/b.txt") [] GoMap.empty
        (lit "hello"))).2.2.2.2.2.2.2
      RangeOrder.stored [lit "server", lit "--directory", lit "/tmp/data/"] FileStore.blank
      (lit "/tmp/data/b.txt") (by decide)⟩

/-! ## The file handler -/

theorem last_part_of_slash (req : Request) (pre seg : GoString)
    (hseg : req.path = pre ++ slash ++ seg) (hno : Contains seg slash = false) :
    req.GetLastPartOfPath = seg := by
  have hp : req.path = pre ++ 47 :: seg := by
    rw [hseg, List.append_assoc]; rfl
  exact last_part_of_append req pre seg hp ((contains_slash_false_iff _).1 hno)

theorem handleFiles_get (ord : RangeOrder) (prog flag d : GoString) (fs : FileStore)
    (req : Request) (hm : req.method = lit "GET") :
    handleFiles ord [prog, flag, d] fs req =
      if fs.Stat (d ++ req.GetLastPartOfPath) then
        (NewResponseString ord 200
          (some (GoMap.empty.set (lit "Content-Type") (lit "application/octet-stream")))
          (fs.ReadAll (d ++ req.GetLastPartOfPath)), fs)
      else (NewResponseString ord 404 none [], fs) := by
  unfold handleFiles
  rw [if_pos hm, extractFileDirInfo_three]

theorem handleFiles_get_none (ord : RangeOrder) (args : List GoString) (fs : FileStore)
    (req : Request) (hm : req.method = lit "GET") (hargs : args.length ≠ 3) :
    handleFiles ord args fs req = (NewResponseString ord 404 none [], fs) := by
  unfold handleFiles
  rw [if_pos hm, extractFileDirInfo_none args req hargs]

theorem handleFiles_post (ord : RangeOrder) (prog flag d : GoString) (fs : FileStore)
    (req : Request) (hm : req.method = lit "POST") :
    handleFiles ord [prog, flag, d] fs req =
      if fs.writeFails (d ++ req.GetLastPartOfPath) then (NewResponseString ord 500 none [], fs)
      else (NewResponseString ord 201 none [],
        { fs with file := fun q =>
            if q = d ++ req.GetLastPartOfPath then some req.body else fs.file q }) := by
  have hg : req.method ≠ lit "GET" := by rw [hm]; decide
  unfold handleFiles
  rw [if_neg hg, if_pos hm]
  simp only [List.length_cons, List.length_nil, dif_pos, List.get_eq_getElem,
    List.getElem_cons_succ, List.getElem_cons_zero, FileStore.WriteFile]
  split_ifs <;> rfl

theorem handleFiles_post_none (ord : RangeOrder) (args : List GoString) (fs : FileStore)
    (req : Request) (hm : req.method = lit "POST") (hargs : args.length ≠ 3) :
    handleFiles ord args fs req = (NewResponseString ord 404 none [], fs) := by
  have hg : req.method ≠ lit "GET" := by rw [hm]; decide
  unfold handleFiles
  rw [if_neg hg, if_pos hm, dif_neg hargs]

theorem response_404 (ord : RangeOrder) :
    NewResponseString ord 404 none [] = lit "HTTP/1.1 404 Not Found\r\n\r\n\r\n" := by
  rw [response_bare]; decide

theorem response_octet_empty (ord : RangeOrder) :
    NewResponseString ord 200
        (some (GoMap.empty.set (lit "Content-Type") (lit "application/octet-stream"))) [] =
      lit "HTTP/1.1 200 OK\r\nContent-Type: application/octet-stream\r\n\r\n\r\n\r\n" := by
  rw [response_one_header]; decide

theorem response_octet_body (ord : RangeOrder) (contents : GoString) (hne : contents ≠ []) :
    NewResponseString ord 200
        (some (GoMap.empty.set (lit "Content-Type") (lit "application/octet-stream")))
        contents =
      lit "HTTP/1.1 200 OK\r\n" ++ lit "Content-Type: application/octet-stream\r\n" ++
        (lit "Content-Length: " ++ itoa contents.length ++ lit "\r\n") ++
        lit "\r\n" ++ contents ++ lit "\r\n\r\n" ∨
    NewResponseString ord 200
        (some (GoMap.empty.set (lit "Content-Type") (lit "application/octet-stream")))
        contents =
      lit "HTTP/1.1 200 OK\r\n" ++
        (lit "Content-Length: " ++ itoa contents.length ++ lit "\r\n") ++
        lit "Content-Type: application/octet-stream\r\n" ++
        lit "\r\n" ++ contents ++ lit "\r\n\r\n" :=
  response_header_body ord 200 (lit "Content-Type") (lit "application/octet-stream") contents
    (by decide) hne

/-- C12: for a `GET` request whose path contains `/files/` and ends, after its
last `/`, with `seg`, and with the serving directory `d` (the third element
of `os.Args`), the target is `d ++ seg`.  When the target exists and can be
opened, the answer is status 200 with `Content-Type: application/octet-stream`
and the contents of the file as the body (with `Content-Length` before or
after `Content-Type` when the contents are not empty); when it exists and
cannot be opened, the answer is 200 with that header and an empty body; when
it does not exist, or when no directory is configured, the answer is 404
with an empty body.  The file system is left as it was. -/
theorem files_get (ord : RangeOrder) (prog flag d : GoString) (fs : FileStore) (req : Request)
    (pre seg : GoString) (hm : req.method = lit "GET")
    (hfiles : Contains req.path (lit "/files/") = true)
    (hseg : req.path = pre ++ slash ++ seg) (hno : Contains seg slash = false) :
    (∀ contents, fs.file (d ++ seg) = some contents → fs.openFails (d ++ seg) = false →
      dispatch ord [prog, flag, d] fs req =
        (NewResponseString ord 200
          (some (GoMap.empty.set (lit "Content-Type") (lit "application/octet-stream")))
          contents, fs) ∧
      (contents = [] → (dispatch ord [prog, flag, d] fs req).1 =
        lit "HTTP/1.1 200 OK\r\nContent-Type: application/octet-stream\r\n\r\n\r\n\r\n") ∧
      (contents ≠ [] →
        (dispatch ord [prog, flag, d] fs req).1 =
          lit "HTTP/1.1 200 OK\r\n" ++ lit "Content-Type: application/octet-stream\r\n" ++
            (lit "Content-Length: " ++ itoa contents.length ++ lit "\r\n") ++
            lit "\r\n" ++ contents ++ lit "\r\n\r\n" ∨
        (dispatch ord [prog, flag, d] fs req).1 =
          lit "HTTP/1.1 200 OK\r\n" ++
            (lit "Content-Length: " ++ itoa contents.length ++ lit "\r\n") ++
            lit "Content-Type: application/octet-stream\r\n" ++
            lit "\r\n" ++ contents ++ lit "\r\n\r\n")) ∧
    (∀ contents, fs.file (d ++ seg) = some contents → fs.openFails (d ++ seg) = true →
      dispatch ord [prog, flag, d] fs req =
        (lit "HTTP/1.1 200 OK\r\nContent-Type: application/octet-stream\r\n\r\n\r\n\r\n", fs)) ∧
    (fs.file (d ++ seg) = none →
      dispatch ord [prog, flag, d] fs req = (lit "HTTP/1.1 404 Not Found\r\n\r\n\r\n", fs)) ∧
    (∀ args : List GoString, args.length ≠ 3 →
      dispatch ord args fs req = (lit "HTTP/1.1 404 Not Found\r\n\r\n\r\n", fs)) := by
  have hlast := last_part_of_slash req pre seg hseg hno
  have hd : dispatch ord [prog, flag, d] fs req =
      if fs.Stat (d ++ seg) then
        (NewResponseString ord 200
          (some (GoMap.empty.set (lit "Content-Type") (lit "application/octet-stream")))
          (fs.ReadAll (d ++ seg)), fs)
      else (NewResponseString ord 404 none [], fs) := by
    rw [dispatch_files ord _ fs req hfiles, handleFiles_get ord prog flag d fs req hm, hlast]
  refine ⟨?_, ?_, ?_, ?_⟩
  · intro contents hfile hopen
    have h1 : fs.Stat (d ++ seg) = true := by simp [FileStore.Stat, hfile]
    have h2 : fs.ReadAll (d ++ seg) = contents := by simp [FileStore.ReadAll, hfile, hopen]
    have hd' : dispatch ord [prog, flag, d] fs req =
        (NewResponseString ord 200
          (some (GoMap.empty.set (lit "Content-Type") (lit "application/octet-stream")))
          contents, fs) := by
      rw [hd, h1, h2]; rfl
    refine ⟨hd', ?_, ?_⟩
    · rintro rfl
      rw [hd']
      exact response_octet_empty ord
    · intro hne
      rw [hd']
      exact response_octet_body ord contents hne
  · intro contents hfile hopen
    have h1 : fs.Stat (d ++ seg) = true := by simp [FileStore.Stat, hfile]
    have h2 : fs.ReadAll (d ++ seg) = [] := by simp [FileStore.ReadAll, hopen]
    rw [hd, h1, h2, response_octet_empty]; rfl
  · intro hfile
    have h1 : fs.Stat (d ++ seg) = false := by simp [FileStore.Stat, hfile]
    rw [hd, h1, response_404]; rfl
  · intro args hargs
    rw [dispatch_files ord _ fs req hfiles, handleFiles_get_none ord args fs req hm hargs,
      response_404]

/-- C12 at concrete inputs: `GET /files/missing.txt` with no such file gives
404; `GET /files/a.txt` with the file holding `hi` gives 200 and `hi`. -/
theorem files_get_witness :
    dispatch RangeOrder.stored [lit "server", lit "--directory", lit "/tmp/data/"]
        (FileStore.single (lit "/tmp/data/a.txt") (lit "hi"))
        (Request.mk (lit "GET") [] [] (lit "/files/missing.txt") [] GoMap.empty []) =
      (lit "HTTP/1.1 404 Not Found\r\n\r\n\r\n",
        FileStore.single (lit "/tmp/data/a.txt") (lit "hi")) ∧
    (processConnection RangeOrder.stored [lit "server", lit "--directory", lit "/tmp/data/"]
        (FileStore.single (lit "/tmp/data/a.txt") (lit "hi"))
        (lit "GET /files/missing.txt HTTP/1.1\r\n\r\n")).map Prod.fst =
      some (lit "HTTP/1.1 404 Not Found\r\n\r\n\r\n") ∧
    dispatch RangeOrder.stored [lit "server", lit "--directory", lit "/tmp/data/"]
        (FileStore.single (lit "/tmp/data/a.txt") (lit "hi"))
        (Request.mk (lit "GET") [] [] (lit "/files/a.txt") [] GoMap.empty []) =
      (NewResponseString RangeOrder.stored 200
        (some (GoMap.empty.set (lit "Content-Type") (lit "application/octet-stream")))
        (lit "hi"), FileStore.single (lit "/tmp/data/a.txt") (lit "hi")) ∧
    NewResponseString RangeOrder.stored 200
        (some (GoMap.empty.set (lit "Content-Type") (lit "application/octet-stream")))
        (lit "hi") =
      lit ("HTTP/1.1 200 OK\r\nContent-Type: application/octet-stream\r\n" ++
        "Content-Length: 2\r\n\r\nhi\r\n\r\n") :=
  ⟨(files_get RangeOrder.stored (lit "server") (lit "--directory") (lit "/tmp/data/")
      (FileStore.single (lit "/tmp/data/a.txt") (lit "hi"))
      (Request.mk (lit "GET") [] [] (lit "/files/missing.txt") [] GoMap.empty [])
      (lit "/files") (lit "missing.txt") (by decide) (by decide) (by decide)
      (by decide)).2.2.1 (by decide),
    by decide,
    ((files_get RangeOrder.stored (lit "server") (lit "--directory") (lit "/tmp/data/")
      (FileStore.single (lit "/tmp/data/a.txt") (lit "hi"))
      (Request.mk (lit "GET") [] [] (lit "/files/a.txt") [] GoMap.empty [])
      (lit "/files") (lit "a.txt") (by decide) (by decide) (by decide)
      (by decide)).1 (lit "hi") (by decide) (by decide)).1,
    by decide⟩

/-- C13: for a `POST` request whose path contains `/files/` and ends, after
its last `/`, with `seg`, and with the serving directory `d` (the third
element of `os.Args`), the handler writes to `d ++ seg`.  When the write
succeeds the answer is 201 with an empty body, the file at `d ++ seg` holds
exactly the body of the request and every other path is as it was; when the
write fails the answer is 500 with an empty body and every other path is as
it was; when no directory is configured the answer is 404 and the file
system is left as it was. -/
theorem files_post (ord : RangeOrder) (prog flag d : GoString) (fs : FileStore) (req : Request)
    (pre seg : GoString) (hm : req.method = lit "POST")
    (hfiles : Contains req.path (lit "/files/") = true)
    (hseg : req.path = pre ++ slash ++ seg) (hno : Contains seg slash = false) :
    (fs.writeFails (d ++ seg) = false →
      (dispatch ord [prog, flag, d] fs req).1 = lit "HTTP/1.1 201 Created\r\n\r\n\r\n" ∧
      (dispatch ord [prog, flag, d] fs req).2.file (d ++ seg) = some req.body ∧
      ∀ q, q ≠ d ++ seg → (dispatch ord [prog, flag, d] fs req).2.file q = fs.file q) ∧
    (fs.writeFails (d ++ seg) = true →
      (dispatch ord [prog, flag, d] fs req).1 =
        lit "HTTP/1.1 500 Internal Server Error\r\n\r\n\r\n" ∧
      ∀ q, q ≠ d ++ seg → (dispatch ord [prog, flag, d] fs req).2.file q = fs.file q) ∧
    (∀ args : List GoString, args.length ≠ 3 →
      dispatch ord args fs req = (lit "HTTP/1.1 404 Not Found\r\n\r\n\r\n", fs)) := by
  have hlast := last_part_of_slash req pre seg hseg hno
  have h201 : NewResponseString ord 201 none [] = lit "HTTP/1.1 201 Created\r\n\r\n\r\n" := by
    rw [response_bare]; decide
  have h500 : NewResponseString ord 500 none []
      = lit "HTTP/1.1 500 Internal Server Error\r\n\r\n\r\n" := by
    rw [response_bare]; decide
  have hd : dispatch ord [prog, flag, d] fs req =
      if fs.writeFails (d ++ seg) then (NewResponseString ord 500 none [], fs)
      else (NewResponseString ord 201 none [],
        { fs with file := fun q => if q = d ++ seg then some req.body else fs.file q }) := by
    rw [dispatch_files ord _ fs req hfiles, handleFiles_post ord prog flag d fs req hm, hlast]
  refine ⟨?_, ?_, ?_⟩
  · intro hw
    rw [hd, hw]
    refine ⟨h201, by simp, ?_⟩
    intro q hq
    simp [hq]
  · intro hw
    rw [hd, hw]
    exact ⟨h500, fun q _ => rfl⟩
  · intro args hargs
    rw [dispatch_files ord _ fs req hfiles, handleFiles_post_none ord args fs req hm hargs,
      response_404]

/-- C13 at concrete inputs: `POST /files/foo.txt` with the body `hello` and the
directory `/tmp/data/` leaves `/tmp/data/foo.txt` holding `hello`, leaves
`/tmp/data/a.txt` as it was, and answers 201. -/
theorem files_post_witness :
    (processConnection RangeOrder.stored [lit "server", lit "--directory", lit "/tmp/data/"]
        (FileStore.single (lit "/tmp/data/a.txt") (lit "hi"))
        (lit "POST /files/foo.txt HTTP/1.1\r\nHost: localhost\r\n\r\nhello")).map
        (fun out => (out.1, out.2.file (lit "/tmp/data/foo.txt"),
          out.2.file (lit "/tmp/data/a.txt"))) =
      some (lit "HTTP/1.1 201 Created\r\n\r\n\r\n", some (lit "hello"), some (lit "hi")) ∧
    ((dispatch RangeOrder.stored [lit "server", lit "--directory", lit "/tmp/data/"]
        (FileStore.single (lit "/tmp/data/a.txt") (lit "hi"))
        (Request.mk (lit "POST") [] [] (lit "/files/foo.txt") [] GoMap.empty (lit "hello"))).1 =
      lit "HTTP/1.1 201 Created\r\n\r\n\r\n" ∧
    (dispatch RangeOrder.stored [lit "server", lit "--directory", lit "/tmp/data/"]
        (FileStore.single (lit "/tmp/data/a.txt") (lit "hi"))
        (Request.mk (lit "POST") [] [] (lit "/files/foo.txt") [] GoMap.empty
          (lit "hello"))).2.file (lit "/tmp/data/" ++ lit "foo.txt") =
      some (Request.mk (lit "POST") [] [] (lit "/files/foo.txt") [] GoMap.empty
        (lit "hello")).body ∧
    ∀ q, q ≠ lit "/tmp/data/" ++ lit "foo.txt" →
      (dispatch RangeOrder.stored [lit "server", lit "--directory", lit "/tmp/data/"]
        (FileStore.single (lit "/tmp/data/a.txt") (lit "hi"))
        (Request.mk (lit "POST") [] [] (lit "/files/foo.txt") [] GoMap.empty
          (lit "hello"))).2.file q =
      (FileStore.single (lit "/tmp/data/a.txt") (lit "hi")).file q) ∧
    (dispatch RangeOrder.stored [lit "server", lit "--directory", lit "/tmp/data/"]
        (FileStore.mk (fun _ => none) (fun _ => false) (fun _ => true))
        (Request.mk (lit "POST") [] [] (lit "/files/foo.txt") [] GoMap.empty (lit "hello"))).1 =
      lit "HTTP/1.1 500 Internal Server Error\r\n\r\n\r\n" :=
  ⟨by decide,
    (files_post RangeOrder.stored (lit "server") (lit "--directory") (lit "/tmp/data/")
      (FileStore.single (lit "/tmp/data/a.txt") (lit "hi"))
      (Request.mk (lit "POST") [] [] (lit "/files/foo.txt") [] GoMap.empty (lit "hello"))
      (lit "/files") (lit "foo.txt") (by decide) (by decide) (by decide) (by decide)).1
      (by decide),
    ((files_post RangeOrder.stored (lit "server") (lit "--directory") (lit "/tmp/data/")
      (FileStore.mk (fun _ => none) (fun _ => false) (fun _ => true))
      (Request.mk (lit "POST") [] [] (lit "/files/foo.txt") [] GoMap.empty (lit "hello"))
      (lit "/files") (lit "foo.txt") (by decide) (by decide) (by decide) (by decide)).2.1
      (by decide)).1⟩

/-- C14 (as stated, refuted): the same request `GET /files/a.txt` against the
same file system and the same directory gives two different byte strings when
the two loops over the header map visit `Content-Type` and `Content-Length` in
different orders; the file system is the same before and after. -/
theorem repeat_get_header_order :
    (dispatch RangeOrder.stored [lit "server", lit "--directory", lit "/tmp/data/"]
        (FileStore.single (lit "/tmp/data/a.txt") (lit "hi"))
        (Request.mk (lit "GET") [] [] (lit "/files/a.txt") [] GoMap.empty [])).1 =
      lit ("HTTP/1.1 200 OK\r\nContent-Type: application/octet-stream\r\n" ++
        "Content-Length: 2\r\n\r\nhi\r\n\r\n") ∧
    (dispatch RangeOrder.reversed [lit "server", lit "--directory", lit "/tmp/data/"]
        (FileStore.single (lit "/tmp/data/a.txt") (lit "hi"))
        (Request.mk (lit "GET") [] [] (lit "/files/a.txt") [] GoMap.empty [])).1 =
      lit ("HTTP/1.1 200 OK\r\nContent-Length: 2\r\n" ++
        "Content-Type: application/octet-stream\r\n\r\nhi\r\n\r\n") ∧
    (dispatch RangeOrder.stored [lit "server", lit "--directory", lit "/tmp/data/"]
        (FileStore.single (lit "/tmp/data/a.txt") (lit "hi"))
        (Request.mk (lit "GET") [] [] (lit "/files/a.txt") [] GoMap.empty [])).1 ≠
    (dispatch RangeOrder.reversed [lit "server", lit "--directory", lit "/tmp/data/"]
        (FileStore.single (lit "/tmp/data/a.txt") (lit "hi"))
        (Request.mk (lit "GET") [] [] (lit "/files/a.txt") [] GoMap.empty [])).1 := by
  decide

/-- C14 (amended): a `GET` request for a path containing `/files/` leaves the
file system as it was, and its answer is a function of the request, the
arguments and the file contents up to the order of the two header lines: it
is the same 404 for every visit order when no directory is configured or the
file does not exist, the same 200 with `Content-Type` alone when nothing is
read from the file, and otherwise one of the two byte strings that hold the
lines `Content-Type` and `Content-Length` in either order. -/
theorem repeat_get_response (args : List GoString) (fs : FileStore) (req : Request)
    (hm : req.method = lit "GET") (hfiles : Contains req.path (lit "/files/") = true) :
    (∀ ord, (dispatch ord args fs req).2 = fs) ∧
    (extractFileDirInfo args req = none →
      ∀ ord, (dispatch ord args fs req).1 = lit "HTTP/1.1 404 Not Found\r\n\r\n\r\n") ∧
    (∀ full, extractFileDirInfo args req = some full →
      (fs.Stat full = false →
        ∀ ord, (dispatch ord args fs req).1 = lit "HTTP/1.1 404 Not Found\r\n\r\n\r\n") ∧
      (fs.Stat full = true → fs.ReadAll full = [] →
        ∀ ord, (dispatch ord args fs req).1 =
          lit "HTTP/1.1 200 OK\r\nContent-Type: application/octet-stream\r\n\r\n\r\n\r\n") ∧
      (fs.Stat full = true → fs.ReadAll full ≠ [] →
        ∀ ord,
          (dispatch ord args fs req).1 =
            lit "HTTP/1.1 200 OK\r\n" ++ lit "Content-Type: application/octet-stream\r\n" ++
              (lit "Content-Length: " ++ itoa (fs.ReadAll full).length ++ lit "\r\n") ++
              lit "\r\n" ++ fs.ReadAll full ++ lit "\r\n\r\n" ∨
          (dispatch ord args fs req).1 =
            lit "HTTP/1.1 200 OK\r\n" ++
              (lit "Content-Length: " ++ itoa (fs.ReadAll full).length ++ lit "\r\n") ++
              lit "Content-Type: application/octet-stream\r\n" ++
              lit "\r\n" ++ fs.ReadAll full ++ lit "\r\n\r\n")) := by
  have hd : ∀ ord, dispatch ord args fs req =
      match extractFileDirInfo args req with
      | none => (NewResponseString ord 404 none [], fs)
      | some fullPath =>
        if fs.Stat fullPath then
          (NewResponseString ord 200
            (some (GoMap.empty.set (lit "Content-Type") (lit "application/octet-stream")))
            (fs.ReadAll fullPath), fs)
        else (NewResponseString ord 404 none [], fs) := by
    intro ord
    rw [dispatch_files ord args fs req hfiles]
    unfold handleFiles
    rw [if_pos hm]
  refine ⟨?_, ?_, ?_⟩
  · intro ord
    rw [hd]
    split
    · rfl
    · split <;> rfl
  · intro hnone ord
    rw [hd, hnone]
    exact response_404 ord
  · intro full hsome
    refine ⟨?_, ?_, ?_⟩
    · intro hstat ord
      rw [hd, hsome]
      simp only [hstat, Bool.false_eq_true, if_false]
      exact response_404 ord
    · intro hstat hread ord
      rw [hd, hsome]
      simp only [hstat, if_true, hread]
      exact response_octet_empty ord
    · intro hstat hread ord
      rw [hd, hsome]
      simp only [hstat, if_true]
      exact response_octet_body ord _ hread

/-- C14 (amended) at concrete inputs: `GET /files/missing.txt` gives the same
404 under both visit orders, and `GET /files/a.txt` gives one of the two
orders of the header lines. -/
theorem repeat_get_response_witness :
    (dispatch RangeOrder.stored [lit "server", lit "--directory", lit "/tmp/data/"]
        (FileStore.single (lit "/tmp/data/a.txt") (lit "hi"))
        (Request.mk (lit "GET") [] [] (lit "/files/missing.txt") [] GoMap.empty [])).1 =
      lit "HTTP/1.1 404 Not Found\r\n\r\n\r\n" ∧
    (dispatch RangeOrder.reversed [lit "server", lit "--directory", lit "/tmp/data/"]
        (FileStore.single (lit "/tmp/data/a.txt") (lit "hi"))
        (Request.mk (lit "GET") [] [] (lit "/files/missing.txt") [] GoMap.empty [])).1 =
      lit "HTTP/1.1 404 Not Found\r\n\r\n\r\n" ∧
    (dispatch RangeOrder.reversed [lit "server", lit "--directory", lit "/tmp/data/"]
        (FileStore.single (lit "/tmp/data/a.txt") (lit "hi"))
        (Request.mk (lit "GET") [] [] (lit "/files/a.txt") [] GoMap.empty [])).2 =
      FileStore.single (lit "/tmp/data/a.txt") (lit "hi") :=
  ⟨((repeat_get_response [lit "server", lit "--directory", lit "/tmp/data/"]
      (FileStore.single (lit "/tmp/data/a.txt") (lit "hi"))
      (Request.mk (lit "GET") [] [] (lit "/files/missing.txt") [] GoMap.empty [])
      (by decide) (by decide)).2.2 (lit "/tmp/data/missing.txt") (by decide)).1 (by decide)
      RangeOrder.stored,
    ((repeat_get_response [lit "server", lit "--directory", lit "/tmp/data/"]
      (FileStore.single (lit "/tmp/data/a.txt") (lit "hi"))
      (Request.mk (lit "GET") [] [] (lit "/files/missing.txt") [] GoMap.empty [])
      (by decide) (by decide)).2.2 (lit "/tmp/data/missing.txt") (by decide)).1 (by decide)
      RangeOrder.reversed,
    (repeat_get_response [lit "server", lit "--directory", lit "/tmp/data/"]
      (FileStore.single (lit "/tmp/data/a.txt") (lit "hi"))
      (Request.mk (lit "GET") [] [] (lit "/files/a.txt") [] GoMap.empty [])
      (by decide) (by decide)).1 RangeOrder.reversed⟩

/-! ## The body of the request -/

theorem scanLine_body (st : GoMap × GoString) (l : GoString) :
    (scanLine st l).2 =
      if occurrences colonSpace l = 1 then st.2 else if l = [] then st.2 else l := by
  by_cases hocc : occurrences colonSpace l = 1
  · obtain ⟨n, v, hnv⟩ := split_pair_of_one 58 32 (by decide) l hocc
    rw [scanLine_of_pair st l n v hnv, if_pos hocc]
  · have hno : ∀ n v, Split l colonSpace ≠ [n, v] := by
      intro n v heq
      exact hocc ((split_pair_iff 58 32 (by decide) l n v).1 heq).1
    rw [scanLine_of_not_pair st l hno, if_neg hocc]
    by_cases hl : l = []
    · subst hl
      simp
    · have : l.length > 0 := List.length_pos.2 hl
      simp [this, hl]

theorem foldl_scanLine_body (ls : List GoString) (st : GoMap × GoString) :
    ((ls.foldl scanLine st).2 = st.2 ∧ ∀ l ∈ ls, l = [] ∨ occurrences colonSpace l = 1) ∨
    (∃ pre post, ls = pre ++ (ls.foldl scanLine st).2 :: post ∧
      (ls.foldl scanLine st).2 ≠ [] ∧ occurrences colonSpace (ls.foldl scanLine st).2 ≠ 1 ∧
      ∀ l ∈ post, l = [] ∨ occurrences colonSpace l = 1) := by
  induction ls generalizing st with
  | nil => left; simp
  | cons l ls ih =>
    rw [List.foldl_cons]
    rcases ih (scanLine st l) with ⟨h1, h2⟩ | ⟨pre, post, h1, h2, h3, h4⟩
    · rw [h1, scanLine_body]
      by_cases hocc : occurrences colonSpace l = 1
      · left
        rw [if_pos hocc]
        refine ⟨rfl, ?_⟩
        intro l' hl'
        rcases List.mem_cons.1 hl' with rfl | hl'
        · exact Or.inr hocc
        · exact h2 l' hl'
      · by_cases hl : l = []
        · left
          rw [if_neg hocc, if_pos hl]
          refine ⟨rfl, ?_⟩
          intro l' hl'
          rcases List.mem_cons.1 hl' with rfl | hl'
          · exact Or.inl hl
          · exact h2 l' hl'
        · right
          rw [if_neg hocc, if_neg hl]
          exact ⟨[], ls, rfl, hl, hocc, h2⟩
    · right
      refine ⟨l :: pre, post, ?_, h2, h3, h4⟩
      rw [List.cons_append, ← h1]

/-- C17: the body of the request `NewRequest` returns is the last line after
the request line that is not empty and is not a header line (a line with
exactly one `": "`): either the body is empty and every such line is empty or
a header line, or the body is one of these lines, it is neither empty nor a
header line, and every line after it is empty or a header line. -/
theorem body_is_last_plain_line (raw : GoString) (r : Request) (h : NewRequest raw = some r) :
    (r.body = [] ∧ ∀ l ∈ (Split raw CRLF).drop 1, l = [] ∨ occurrences colonSpace l = 1) ∨
    (∃ pre post, (Split raw CRLF).drop 1 = pre ++ r.body :: post ∧
      r.body ≠ [] ∧ occurrences colonSpace r.body ≠ 1 ∧
      ∀ l ∈ post, l = [] ∨ occurrences colonSpace l = 1) := by
  rw [(NewRequest_eq_some raw r h).2]
  exact foldl_scanLine_body _ _

/-- C17 at a concrete input: the lines `first` and `second` are both neither
empty nor header lines, `second` is the later one, and the empty lines after
it do not reset the body. -/
theorem body_is_last_plain_line_witness :
    (NewRequest (lit "POST /x HTTP/1.1\r\nfirst\r\nHost: a\r\n\r\nsecond\r\n\r\n")).map
        (fun r => r.body) = some (lit "second") ∧
    ∃ r, NewRequest (lit "POST /x HTTP/1.1\r\nfirst\r\nHost: a\r\n\r\nsecond\r\n\r\n")
        = some r ∧
      ((r.body = [] ∧
          ∀ l ∈ (Split (lit "POST /x HTTP/1.1\r\nfirst\r\nHost: a\r\n\r\nsecond\r\n\r\n")
            CRLF).drop 1, l = [] ∨ occurrences colonSpace l = 1) ∨
        (∃ pre post,
          (Split (lit "POST /x HTTP/1.1\r\nfirst\r\nHost: a\r\n\r\nsecond\r\n\r\n")
            CRLF).drop 1 = pre ++ r.body :: post ∧
          r.body ≠ [] ∧ occurrences colonSpace r.body ≠ 1 ∧
          ∀ l ∈ post, l = [] ∨ occurrences colonSpace l = 1)) :=
  ⟨by decide,
    _,
    NewRequest_of_fields (lit "POST /x HTTP/1.1\r\nfirst\r\nHost: a\r\n\r\nsecond\r\n\r\n")
      (lit "POST /x HTTP/1.1") [lit "first", lit "Host: a", [], lit "second", [], []]
      (lit "POST") (lit "/x") [lit "HTTP/1.1"] (by decide) (by decide),
    body_is_last_plain_line (lit "POST /x HTTP/1.1\r\nfirst\r\nHost: a\r\n\r\nsecond\r\n\r\n") _
      (NewRequest_of_fields (lit "POST /x HTTP/1.1\r\nfirst\r\nHost: a\r\n\r\nsecond\r\n\r\n")
        (lit "POST /x HTTP/1.1") [lit "first", lit "Host: a", [], lit "second", [], []]
        (lit "POST") (lit "/x") [lit "HTTP/1.1"] (by decide) (by decide))⟩

/-! ## The framing of the response -/

theorem digit_enc (k : Nat) (hk : k < 10) :
    String.utf8EncodeChar (Nat.digitChar k) = [UInt8.ofNat (48 + k)] := by
  interval_cases k <;> rfl

theorem digits_bytes (fuel n : Nat) (ds : List Char)
    (h : ∀ c ∈ ds.flatMap String.utf8EncodeChar, (48 : UInt8) ≤ c ∧ c ≤ 57) :
    ∀ c ∈ (Nat.toDigitsCore 10 fuel n ds).flatMap String.utf8EncodeChar,
      (48 : UInt8) ≤ c ∧ c ≤ 57 := by
  induction fuel generalizing n ds with
  | zero => simpa [Nat.toDigitsCore] using h
  | succ fuel ih =>
    have hd : ∀ c ∈ (Nat.digitChar (n % 10) :: ds).flatMap String.utf8EncodeChar,
        (48 : UInt8) ≤ c ∧ c ≤ 57 := by
      intro c hc
      rw [List.flatMap_cons, List.mem_append] at hc
      rcases hc with hc | hc
      · rw [digit_enc (n % 10) (Nat.mod_lt _ (by decide))] at hc
        simp only [List.mem_singleton] at hc
        subst hc
        have hlt : n % 10 < 10 := Nat.mod_lt _ (by decide)
        generalize n % 10 = k at hlt
        interval_cases k <;> decide
      · exact h c hc
    unfold Nat.toDigitsCore
    simp only
    split_ifs
    · exact hd
    · exact ih _ _ hd

theorem itoa_digits (n : Nat) : ∀ c ∈ itoa n, (48 : UInt8) ≤ c ∧ c ≤ 57 := by
  unfold itoa Nat.toDigits
  exact digits_bytes _ _ [] (by simp)

theorem digits_value (fuel n : Nat) (ds : List Char) (h : n < fuel) :
    ((Nat.toDigitsCore 10 fuel n ds).flatMap String.utf8EncodeChar).foldl
        (fun acc (c : UInt8) => 10 * acc + (c.toNat - 48)) 0 =
      (ds.flatMap String.utf8EncodeChar).foldl
        (fun acc (c : UInt8) => 10 * acc + (c.toNat - 48)) n := by
  induction fuel generalizing n ds with
  | zero => omega
  | succ fuel ih =>
    have hstep : ∀ acc : Nat,
        ((Nat.digitChar (n % 10) :: ds).flatMap String.utf8EncodeChar).foldl
          (fun acc (c : UInt8) => 10 * acc + (c.toNat - 48)) acc =
        (ds.flatMap String.utf8EncodeChar).foldl
          (fun acc (c : UInt8) => 10 * acc + (c.toNat - 48)) (10 * acc + n % 10) := by
      intro acc
      rw [List.flatMap_cons, digit_enc (n % 10) (Nat.mod_lt _ (by decide)), List.foldl_append]
      have hlt : n % 10 < 10 := Nat.mod_lt _ (by decide)
      have : (UInt8.ofNat (48 + n % 10)).toNat - 48 = n % 10 := by
        generalize n % 10 = k at hlt
        interval_cases k <;> rfl
      simp only [List.foldl_cons, List.foldl_nil, this]
    unfold Nat.toDigitsCore
    simp only
    split_ifs with h0
    · rw [hstep 0]
      have : n % 10 = n := Nat.mod_eq_of_lt (by omega)
      simp [this]
    · rw [ih (n / 10) _ (by omega), hstep (n / 10)]
      have : 10 * (n / 10) + n % 10 = n := Nat.div_add_mod n 10
      rw [this]

theorem atoi_itoa (n : Nat) : atoi (itoa n) = n := by
  unfold atoi itoa Nat.toDigits
  rw [digits_value (n + 1) n [] (Nat.lt_succ_self n)]
  rfl

theorem index_blank_skip_clean (l X : GoString) (hl : ∀ c ∈ l, c ≠ 13 ∧ c ≠ 10) :
    Index (l ++ X) [13, 10, 13, 10] = (Index X [13, 10, 13, 10]).map (· + l.length) := by
  induction l with
  | nil => simp
  | cons c l ih =>
    have hc : c ≠ 13 := (hl c (List.mem_cons_self _ _)).1
    have hp : HasPrefix (c :: (l ++ X)) [13, 10, 13, 10] = false := by
      simp [HasPrefix, hc]
    rw [List.cons_append, index_cons, hp, ih (fun d hd => hl d (List.mem_cons_of_mem _ hd))]
    cases Index X [13, 10, 13, 10] with
    | none => rfl
    | some m => simp [Nat.add_assoc]

theorem index_blank_skip_crlf (c : UInt8) (X : GoString) (hc : c ≠ 13) :
    Index (13 :: 10 :: c :: X) [13, 10, 13, 10] =
      (Index (c :: X) [13, 10, 13, 10]).map (· + 2) := by
  have hp1 : HasPrefix (13 :: 10 :: c :: X) [13, 10, 13, 10] = false := by
    simp [HasPrefix, hc]
  have hp2 : HasPrefix (10 :: c :: X) [13, 10, 13, 10] = false := by
    simp [HasPrefix]
  rw [index_cons, hp1, index_cons, hp2]
  cases Index (c :: X) [13, 10, 13, 10] with
  | none => rfl
  | some m => rfl

/-- In lines without `\r` and `\n`, none of them empty, joined by `\r\n` and
followed by `\r\n\r\n`, the first `\r\n\r\n` is the one after the lines. -/
theorem index_blank_joinLines (ls : List GoString) (hne : ls ≠ [])
    (hl : ∀ l ∈ ls, l ≠ [] ∧ ∀ c ∈ l, c ≠ 13 ∧ c ≠ 10) (rest : GoString) :
    Index (joinLines ls ++ 13 :: 10 :: 13 :: 10 :: rest) [13, 10, 13, 10]
      = some (joinLines ls).length := by
  induction ls with
  | nil => exact absurd rfl hne
  | cons l ls ih =>
    cases ls with
    | nil =>
      simp only [joinLines]
      rw [index_blank_skip_clean l _ (hl l (List.mem_cons_self _ _)).2, index_cons]
      simp [HasPrefix]
    | cons l' ls =>
      have hl' := hl l' (List.mem_cons_of_mem _ (List.mem_cons_self _ _))
      have ih' := ih (by simp) (fun x hx => hl x (List.mem_cons_of_mem _ hx))
      have e : joinLines (l :: l' :: ls) ++ 13 :: 10 :: 13 :: 10 :: rest
          = l ++ 13 :: 10 :: (joinLines (l' :: ls) ++ 13 :: 10 :: 13 :: 10 :: rest) := by
        simp only [joinLines, List.append_assoc]
        rfl
      obtain ⟨c, t, hct⟩ : ∃ c t, joinLines (l' :: ls) = c :: t ∧ c ≠ 13 := by
        cases l' with
        | nil => exact absurd rfl hl'.1
        | cons c t' =>
          have hc : c ≠ 13 := (hl'.2 c (List.mem_cons_self _ _)).1
          cases ls with
          | nil => exact ⟨c, t', rfl, hc⟩
          | cons l'' ls' => exact ⟨c, _, rfl, hc⟩
      rw [e, index_blank_skip_clean l _ (hl l (List.mem_cons_self _ _)).2]
      rw [hct.1] at ih' ⊢
      rw [List.cons_append, index_blank_skip_crlf c _ hct.2, ← List.cons_append, ih']
      simp only [Option.map_some', Option.some.injEq, joinLines, List.length_append, hct.1]
      have : CRLF.length = 2 := rfl
      omega

theorem joinLines_headers (l : GoString) (es : List (GoString × GoString)) :
    l ++ lit "\r\n" ++ es.flatMap headerLine =
      joinLines (l :: es.map (fun e => e.1 ++ lit ": " ++ e.2)) ++ lit "\r\n" := by
  induction es generalizing l with
  | nil => simp [joinLines]
  | cons e es ih =>
    have h := ih (e.1 ++ lit ": " ++ e.2)
    simp only [List.flatMap_cons, List.map_cons, joinLines]
    have e1 : headerLine e ++ es.flatMap headerLine
        = e.1 ++ lit ": " ++ e.2 ++ lit "\r\n" ++ es.flatMap headerLine := rfl
    rw [e1, h]
    show _ = l ++ lit "\r\n" ++ _ ++ lit "\r\n"
    exact (List.append_assoc _ _ _).symm

theorem statusLine_clean (statusCode : Int) :
    ∀ c ∈ lit "HTTP/1.1 " ++ statusLine statusCode, c ≠ 13 ∧ c ≠ 10 := by
  unfold statusLine
  split_ifs <;> decide

theorem response_framed (ord : RangeOrder) (statusCode : Int) (H : Option GoMap) (b : GoString)
    (hb : b ≠ []) :
    NewResponseString ord statusCode H b =
      joinLines ((lit "HTTP/1.1 " ++ statusLine statusCode) ::
        (ord.visit ((H.getD GoMap.empty).set (lit "Content-Length")
          (itoa b.length)).entries).map (fun e => e.1 ++ lit ": " ++ e.2)) ++
        13 :: 10 :: 13 :: 10 :: (b ++ lit "\r\n\r\n") := by
  have hmem : (lit "Content-Length", itoa b.length) ∈
      ord.visit ((H.getD GoMap.empty).set (lit "Content-Length") (itoa b.length)).entries := by
    rw [(ord.perm _).mem_iff]
    simp [GoMap.set]
  have hne : ord.visit ((H.getD GoMap.empty).set (lit "Content-Length")
      (itoa b.length)).entries ≠ [] := List.ne_nil_of_mem hmem
  rw [NewResponseString_eq]
  simp only [if_neg hb, if_neg hne]
  rw [← List.append_assoc (lit "HTTP/1.1 " ++ statusLine statusCode ++ lit "\r\n"),
    joinLines_headers]
  simp only [List.append_assoc]
  rfl

/-- C20: for a non-empty body and a header map whose names and values hold
neither `\r` nor `\n`, the first `\r\n\r\n` of the output of
`NewResponseString` comes right after the last header line: the bytes before
it, with the `\r\n` that ends the last line, are the status line and the
header lines, among them `Content-Length` with a value that reads as the
length of the body; the bytes after it, taken for that length, are the body,
and after them exactly `\r\n\r\n` remains. -/
theorem NewResponseString_self_delimiting (ord : RangeOrder) (statusCode : Int)
    (H : Option GoMap) (b : GoString) (hb : b ≠ [])
    (hclean : ∀ e ∈ (H.getD GoMap.empty).entries,
      (∀ c ∈ e.1, c ≠ 13 ∧ c ≠ 10) ∧ (∀ c ∈ e.2, c ≠ 13 ∧ c ≠ 10)) :
    ∃ (m : Nat) (es : List (GoString × GoString)),
      Index (NewResponseString ord statusCode H b) (lit "\r\n\r\n") = some m ∧
      es.Perm ((H.getD GoMap.empty).set (lit "Content-Length") (itoa b.length)).entries ∧
      (NewResponseString ord statusCode H b).take (m + 2) =
        lit "HTTP/1.1 " ++ statusLine statusCode ++ lit "\r\n" ++ es.flatMap headerLine ∧
      (lit "Content-Length", itoa b.length) ∈ es ∧
      atoi (itoa b.length) = b.length ∧
      ((NewResponseString ord statusCode H b).drop (m + 4)).take b.length = b ∧
      (NewResponseString ord statusCode H b).drop (m + 4 + b.length) = lit "\r\n\r\n" := by
  have hperm := ord.perm ((H.getD GoMap.empty).set (lit "Content-Length")
    (itoa b.length)).entries
  have hmem : (lit "Content-Length", itoa b.length) ∈
      ord.visit ((H.getD GoMap.empty).set (lit "Content-Length") (itoa b.length)).entries := by
    rw [hperm.mem_iff]
    simp [GoMap.set]
  have hout := response_framed ord statusCode H b hb
  generalize hes : ord.visit ((H.getD GoMap.empty).set (lit "Content-Length")
    (itoa b.length)).entries = es at hperm hmem hout
  have hentry : ∀ e ∈ es, (∀ c ∈ e.1, c ≠ 13 ∧ c ≠ 10) ∧ (∀ c ∈ e.2, c ≠ 13 ∧ c ≠ 10) := by
    intro e he
    have he' := hperm.mem_iff.1 he
    simp only [GoMap.set, List.mem_append, List.mem_filter, List.mem_singleton] at he'
    rcases he' with ⟨he', _⟩ | rfl
    · exact hclean e he'
    · have hcl : ∀ c ∈ lit "Content-Length", c ≠ 13 ∧ c ≠ 10 := by decide
      refine ⟨hcl, ?_⟩
      intro c hc
      have hd := itoa_digits b.length c hc
      constructor
      · rintro rfl
        exact absurd hd.1 (by decide)
      · rintro rfl
        exact absurd hd.1 (by decide)
  have hlines : ∀ l ∈ (lit "HTTP/1.1 " ++ statusLine statusCode) ::
      es.map (fun e => e.1 ++ lit ": " ++ e.2), l ≠ [] ∧ ∀ c ∈ l, c ≠ 13 ∧ c ≠ 10 := by
    intro l hl
    rcases List.mem_cons.1 hl with rfl | hl
    · refine ⟨?_, statusLine_clean statusCode⟩
      intro h
      have h' : (72 : UInt8) :: (lit "TTP/1.1 " ++ statusLine statusCode) = [] := h
      exact List.cons_ne_nil _ _ h'
    · obtain ⟨e, he, rfl⟩ := List.mem_map.1 hl
      refine ⟨?_, ?_⟩
      · intro h
        have h1 := (List.append_eq_nil.1 (List.append_eq_nil.1 h).1).2
        exact absurd h1 (by decide)
      · intro c hc
        simp only [List.mem_append] at hc
        rcases hc with (hc | hc) | hc
        · exact (hentry e he).1 c hc
        · have h58 : lit ": " = [58, 32] := rfl
          rw [h58] at hc
          have : c = 58 ∨ c = 32 := by simpa using hc
          rcases this with rfl | rfl <;> decide
        · exact (hentry e he).2 c hc
  have hidx := index_blank_joinLines _ (List.cons_ne_nil _ _) hlines (b ++ lit "\r\n\r\n")
  rw [← hout] at hidx
  refine ⟨_, es, hidx, hperm, ?_, hmem, atoi_itoa _, ?_, ?_⟩
  · rw [joinLines_headers, hout]
    have e : joinLines ((lit "HTTP/1.1 " ++ statusLine statusCode) ::
          es.map (fun e => e.1 ++ lit ": " ++ e.2)) ++
          13 :: 10 :: 13 :: 10 :: (b ++ lit "\r\n\r\n")
        = (joinLines ((lit "HTTP/1.1 " ++ statusLine statusCode) ::
          es.map (fun e => e.1 ++ lit ": " ++ e.2)) ++ lit "\r\n") ++
          (13 :: 10 :: (b ++ lit "\r\n\r\n")) := by
      rw [List.append_assoc]; rfl
    rw [e]
    exact List.take_left' (by rw [List.length_append]; rfl)
  · rw [hout]
    have e : joinLines ((lit "HTTP/1.1 " ++ statusLine statusCode) ::
          es.map (fun e => e.1 ++ lit ": " ++ e.2)) ++
          13 :: 10 :: 13 :: 10 :: (b ++ lit "\r\n\r\n")
        = (joinLines ((lit "HTTP/1.1 " ++ statusLine statusCode) ::
          es.map (fun e => e.1 ++ lit ": " ++ e.2)) ++ lit "\r\n\r\n") ++
          (b ++ lit "\r\n\r\n") := by
      rw [List.append_assoc]; rfl
    rw [e, List.drop_left' (by rw [List.length_append]; rfl)]
    exact List.take_left' rfl
  · rw [hout]
    have e : joinLines ((lit "HTTP/1.1 " ++ statusLine statusCode) ::
          es.map (fun e => e.1 ++ lit ": " ++ e.2)) ++
          13 :: 10 :: 13 :: 10 :: (b ++ lit "\r\n\r\n")
        = (joinLines ((lit "HTTP/1.1 " ++ statusLine statusCode) ::
          es.map (fun e => e.1 ++ lit ": " ++ e.2)) ++ lit "\r\n\r\n" ++ b) ++
          lit "\r\n\r\n" := by
      simp only [List.append_assoc]; rfl
    rw [e]
    exact List.drop_left' (by simp only [List.length_append]; rfl)

/-- C20 at a concrete input: the headers `Content-Type: text/plain` and
`X-A: 1` with the body `hello`. -/
theorem NewResponseString_self_delimiting_witness :
    Index (NewResponseString RangeOrder.reversed 200
        (some ((GoMap.empty.set (lit "Content-Type") (lit "text/plain")).set
          (lit "X-A") (lit "1"))) (lit "hello")) (lit "\r\n\r\n") = some 68 ∧
    ∃ (m : Nat) (es : List (GoString × GoString)),
      Index (NewResponseString RangeOrder.reversed 200
        (some ((GoMap.empty.set (lit "Content-Type") (lit "text/plain")).set
          (lit "X-A") (lit "1"))) (lit "hello")) (lit "\r\n\r\n") = some m ∧
      es.Perm (((some ((GoMap.empty.set (lit "Content-Type") (lit "text/plain")).set
          (lit "X-A") (lit "1")) : Option GoMap).getD GoMap.empty).set (lit "Content-Length")
            (itoa (lit "hello").length)).entries ∧
      (NewResponseString RangeOrder.reversed 200
        (some ((GoMap.empty.set (lit "Content-Type") (lit "text/plain")).set
          (lit "X-A") (lit "1"))) (lit "hello")).take (m + 2) =
        lit "HTTP/1.1 " ++ statusLine 200 ++ lit "\r\n" ++ es.flatMap headerLine ∧
      (lit "Content-Length", itoa (lit "hello").length) ∈ es ∧
      atoi (itoa (lit "hello").length) = (lit "hello").length ∧
      ((NewResponseString RangeOrder.reversed 200
        (some ((GoMap.empty.set (lit "Content-Type") (lit "text/plain")).set
          (lit "X-A") (lit "1"))) (lit "hello")).drop (m + 4)).take (lit "hello").length
        = lit "hello" ∧
      (NewResponseString RangeOrder.reversed 200
        (some ((GoMap.empty.set (lit "Content-Type") (lit "text/plain")).set
          (lit "X-A") (lit "1"))) (lit "hello")).drop (m + 4 + (lit "hello").length)
        = lit "\r\n\r\n" :=
  ⟨by decide,
    NewResponseString_self_delimiting RangeOrder.reversed 200
      (some ((GoMap.empty.set (lit "Content-Type") (lit "text/plain")).set
        (lit "X-A") (lit "1"))) (lit "hello") (by decide) (by decide)⟩

end HttpServer
